import Mathlib

/-!
# VLESS proxy: header codec, client registry, connection handling, camouflage

A shallow embedding of
* the header decoder `ReadHeader`, the acknowledgement writer `WriteResponse`
  and the renderers `GetDestination` and `GetUUID` of
  `internal/vless/protocol.go`, together with the library routines they call
  (`io.ReadFull`, `binary.BigEndian.Uint16`, `net.IP.String`,
  `net.JoinHostPort`, `strconv.Itoa`, `uuid.FromBytes`, `uuid.UUID.String`,
  `uuid.Parse`);
* the registry and the connection handling of `internal/server/server.go`
  (`parseClients`, `NewServer`, `validateClient`, `AddClient`, `RemoveClient`,
  `GetClients`, `handleVLESS`, `handleConnection`);
* the camouflage layer of `internal/reality/reality.go` (`WrapConnection`,
  `ValidateShortID`, `IsRealityConnection`).

Conventions:
* a byte is a `Fin 256`;
* a Go `string` and a Go `[]byte` are both `List Byte`;
* a connection is the list of bytes the peer has sent and that are still
  unread (after them the stream ends) plus the list of bytes written so far;
* a Go map is an association list with at most one entry per key;
* what lies outside the process (dialing, relaying, the TLS handshake, a
  write on the client stream that fails) is a parameter of type `Network`,
  and the functions that talk to it return the list of calls they made, in
  order.
-/

namespace Vless

/-! ## Bytes, strings and connections -/

/-- A machine byte (`byte` / `uint8`). -/
abbrev Byte := Fin 256

/-- A Go string: an immutable sequence of bytes. -/
abbrev GoString := List Byte

/-- The bytes of an ASCII literal, used to write expected strings. -/
def ascii (s : String) : GoString :=
  s.toList.map (fun ch => Fin.ofNat ch.toNat)

/-- The two errors `io.ReadFull` reports on a stream that ends early. -/
inductive IOError where
  /-- The error `io.EOF`: the stream ended before any byte of the buffer was read. -/
  | EOF
  /-- The error `io.ErrUnexpectedEOF`: the stream ended after some but not all bytes. -/
  | ErrUnexpectedEOF
deriving DecidableEq, Repr

/-- A `net.Conn` seen from the server: `unread` are the bytes that will still
arrive from the peer (then the stream ends), `written` the bytes sent so far. -/
structure Conn where
  unread : List Byte
  written : List Byte
deriving DecidableEq, Repr

/-- Model of `io.ReadFull(conn, buf)` with `len(buf) = n`: an empty buffer
returns at once without reading; otherwise exactly `n` bytes are taken, or
the stream is drained and `EOF` (nothing read) or `ErrUnexpectedEOF`
(some bytes read) is reported. -/
def ReadFull (n : Nat) (c : Conn) : Except IOError (List Byte) × Conn :=
  if n = 0 then (.ok [], c)
  else if n ≤ c.unread.length then
    (.ok (c.unread.take n), { c with unread := c.unread.drop n })
  else if c.unread = [] then (.error .EOF, c)
  else (.error .ErrUnexpectedEOF, { c with unread := [] })

/-- Model of `conn.Write(data)` on a healthy connection: all of `data` is
appended to the bytes sent. A write that the outside world makes fail is
`Network.Write`. -/
def Conn.Write (c : Conn) (data : List Byte) : Option IOError × Conn :=
  (none, { c with written := c.written ++ data })

/-- Indexing `buf[i]` into a buffer made by `make([]byte, n)` (zero filled). -/
def byteAt (buf : List Byte) (i : Nat) : Byte := buf.getD i 0

/-! ## Protocol constants -/

/-- Supported protocol version. -/
def Version : Byte := 0

def AddressTypeIPv4 : Byte := 1
def AddressTypeDomain : Byte := 2
def AddressTypeIPv6 : Byte := 3

def CommandTCP : Byte := 1
def CommandUDP : Byte := 2
def CommandMux : Byte := 3

/-! ## Header and decoder -/

/-- The decoded header (`VLESSHeader`); `Port` is a `uint16`. -/
structure VLESSHeader where
  Version : Byte
  UUID : List Byte
  AddOnLen : Byte
  Command : Byte
  Port : Nat
  AddressType : Byte
  Address : List Byte
deriving DecidableEq, Repr

/-- The connection wrapper (`VLESSConnection`): the stream and the header
remembered by the last successful `ReadHeader`. -/
structure VLESSConnection where
  conn : Conn
  header : Option VLESSHeader
deriving DecidableEq, Repr

/-- Constructor `NewVLESSConnection`. -/
def NewVLESSConnection (conn : Conn) : VLESSConnection :=
  { conn := conn, header := none }

/-- The errors `ReadHeader` returns, one constructor per `fmt.Errorf` of the
function; the read errors carry the underlying `io.ReadFull` error. -/
inductive HeaderError where
  | readVersion (e : IOError)
  | unsupportedVersion (v : Byte)
  | readUUID (e : IOError)
  | readAddOnLen (e : IOError)
  | readAddOn (e : IOError)
  | readCommand (e : IOError)
  | readPort (e : IOError)
  | readAddressType (e : IOError)
  | readIPv4 (e : IOError)
  | readIPv6 (e : IOError)
  | readDomainLen (e : IOError)
  | readDomain (e : IOError)
  | unsupportedAddressType (t : Byte)
deriving DecidableEq, Repr

/-- A short read on some field of the header. -/
def HeaderError.isTruncation : HeaderError → Bool
  | .unsupportedVersion _ => false
  | .unsupportedAddressType _ => false
  | _ => true

/-- Model of `binary.BigEndian.Uint16(b)`: `uint16(b[1]) | uint16(b[0])<<8`. -/
def bigEndianUint16 (b : List Byte) : Nat :=
  ((byteAt b 1).val ||| ((byteAt b 0).val <<< 8)) % 65536

/-- The address part of `ReadHeader`: the `switch header.AddressType`. -/
def readAddress (t : Byte) (c : Conn) : Except HeaderError (List Byte) × Conn :=
  if t = AddressTypeIPv4 then
    match ReadFull 4 c with
    | (.error e, c) => (.error (.readIPv4 e), c)
    | (.ok address, c) => (.ok address, c)
  else if t = AddressTypeIPv6 then
    match ReadFull 16 c with
    | (.error e, c) => (.error (.readIPv6 e), c)
    | (.ok address, c) => (.ok address, c)
  else if t = AddressTypeDomain then
    match ReadFull 1 c with
    | (.error e, c) => (.error (.readDomainLen e), c)
    | (.ok domainLenBuf, c) =>
      let domainLen := byteAt domainLenBuf 0
      match ReadFull domainLen.val c with
      | (.error e, c) => (.error (.readDomain e), c)
      | (.ok address, c) => (.ok address, c)
  else (.error (.unsupportedAddressType t), c)

/-- Model of `VLESSConnection.ReadHeader`: the result and the connection
afterwards. On success the header is also stored in the connection. -/
def ReadHeader (vc : VLESSConnection) :
    Except HeaderError VLESSHeader × VLESSConnection :=
  match ReadFull 1 vc.conn with
  | (.error e, c) => (.error (.readVersion e), { vc with conn := c })
  | (.ok versionBuf, c) =>
  if byteAt versionBuf 0 ≠ Version then
    (.error (.unsupportedVersion (byteAt versionBuf 0)), { vc with conn := c })
  else
  match ReadFull 16 c with
  | (.error e, c) => (.error (.readUUID e), { vc with conn := c })
  | (.ok uuid, c) =>
  match ReadFull 1 c with
  | (.error e, c) => (.error (.readAddOnLen e), { vc with conn := c })
  | (.ok addOnLenBuf, c) =>
  let addOnLen := byteAt addOnLenBuf 0
  match (if addOnLen > 0 then ReadFull addOnLen.val c else (.ok [], c)) with
  | (.error e, c) => (.error (.readAddOn e), { vc with conn := c })
  | (.ok _, c) =>
  match ReadFull 1 c with
  | (.error e, c) => (.error (.readCommand e), { vc with conn := c })
  | (.ok commandBuf, c) =>
  match ReadFull 2 c with
  | (.error e, c) => (.error (.readPort e), { vc with conn := c })
  | (.ok portBuf, c) =>
  match ReadFull 1 c with
  | (.error e, c) => (.error (.readAddressType e), { vc with conn := c })
  | (.ok addressTypeBuf, c) =>
  match readAddress (byteAt addressTypeBuf 0) c with
  | (.error e, c) => (.error e, { vc with conn := c })
  | (.ok address, c) =>
    let header : VLESSHeader :=
      { Version := byteAt versionBuf 0
        UUID := uuid
        AddOnLen := addOnLen
        Command := byteAt commandBuf 0
        Port := bigEndianUint16 portBuf
        AddressType := byteAt addressTypeBuf 0
        Address := address }
    (.ok header, { conn := c, header := some header })

/-- Model of `VLESSConnection.WriteResponse`: one `Write` of the two bytes
`{Version, 0}`; the error of the write is returned. -/
def WriteResponse (vc : VLESSConnection) : Option IOError × VLESSConnection :=
  let response : List Byte := [Version, 0]
  let r := vc.conn.Write response
  (r.1, { vc with conn := r.2 })

/-! ## Decimal and hexadecimal rendering -/

/-- The digit characters `"0123456789abcdef"` (`hextable` of `encoding/hex`,
`digits` of `net/netip`). -/
def hextable : List Byte :=
  [48, 49, 50, 51, 52, 53, 54, 55, 56, 57, 97, 98, 99, 100, 101, 102]

/-- The loop of decimal formatting: emit `n % 10`, continue with `n / 10`
while it is not zero. -/
def itoaLoop : Nat → Nat → List Byte → List Byte
  | 0, _, acc => acc
  | fuel + 1, n, acc =>
    let acc := byteAt hextable (n % 10) :: acc
    if n / 10 = 0 then acc else itoaLoop fuel (n / 10) acc

/-- Model of `strconv.Itoa` on a non-negative integer: its decimal digits,
most significant first. -/
def Itoa (n : Nat) : GoString := itoaLoop (n + 1) n []

/-- Model of `appendDecimal` of `net/netip`: a byte in decimal. -/
def appendDecimal (b : List Byte) (x : Byte) : List Byte :=
  let b := if x.val ≥ 100 then b ++ [byteAt hextable (x.val / 100)] else b
  let b := if x.val ≥ 10 then b ++ [byteAt hextable (x.val / 10 % 10)] else b
  b ++ [byteAt hextable (x.val % 10)]

/-- Model of `appendHex` of `net/netip`: a 16-bit group in lowercase hex
without leading zeros. -/
def appendHex (b : List Byte) (x : Nat) : List Byte :=
  let b := if x ≥ 0x1000 then b ++ [byteAt hextable (x >>> 12)] else b
  let b := if x ≥ 0x100 then b ++ [byteAt hextable (x >>> 8 &&& 0xf)] else b
  let b := if x ≥ 0x10 then b ++ [byteAt hextable (x >>> 4 &&& 0xf)] else b
  b ++ [byteAt hextable (x &&& 0xf)]

/-- Model of `hex.Encode`: two lowercase hex digits per byte. -/
def hexEncode : List Byte → List Byte
  | [] => []
  | v :: rest =>
    byteAt hextable (v.val >>> 4) :: byteAt hextable (v.val &&& 0x0f) :: hexEncode rest

/-! ## `net.IP.String` and `net.JoinHostPort` -/

/-- Model of `IP.To4`: a 4-byte address is returned as is, an IPv4-mapped
16-byte address gives its last four bytes, anything else gives nothing. -/
def To4 (ip : List Byte) : Option (List Byte) :=
  if ip.length = 4 then some ip
  else if ip.length = 16 ∧ (ip.take 10).all (fun b => b = 0)
      ∧ byteAt ip 10 = 0xff ∧ byteAt ip 11 = 0xff then
    some ((ip.drop 12).take 4)
  else none

/-- Model of `netip.Addr.string4`: dotted quad. -/
def string4 (p : List Byte) : GoString :=
  let ret := appendDecimal [] (byteAt p 0)
  let ret := appendDecimal (ret ++ [46]) (byteAt p 1)
  let ret := appendDecimal (ret ++ [46]) (byteAt p 2)
  appendDecimal (ret ++ [46]) (byteAt p 3)

/-- The 16-bit group `i` of a 16-byte address (`v6u16`). -/
def v6u16 (ip : List Byte) (i : Nat) : Nat :=
  ((byteAt ip (2 * i)).val <<< 8) ||| (byteAt ip (2 * i + 1)).val

/-- The inner loop `for j < 8 && ip.v6u16(j) == 0 { j++ }`. -/
def zeroRunEnd (ip : List Byte) : Nat → Nat → Nat
  | 0, j => j
  | fuel + 1, j => if j < 8 ∧ v6u16 ip j = 0 then zeroRunEnd ip fuel (j + 1) else j

/-- The first loop of `appendTo6`: the first longest run of at least two zero
groups, as `(zeroStart, zeroEnd)`, or `(255, 255)` when there is none. -/
def longestZeroRun (ip : List Byte) : Nat × Nat :=
  (List.range 8).foldl
    (fun z i =>
      let j := zeroRunEnd ip 8 i
      let l := j - i
      if l ≥ 2 ∧ l > z.2 - z.1 then (i, j) else z)
    (255, 255)

/-- The second loop of `appendTo6`, from group `i` on. -/
def string6Loop (ip : List Byte) (zeroStart zeroEnd : Nat) :
    Nat → Nat → List Byte → List Byte
  | 0, _, ret => ret
  | fuel + 1, i, ret =>
    if i < 8 then
      if i = zeroStart then
        let ret := ret ++ [58, 58]
        let i := zeroEnd
        if i ≥ 8 then ret
        else string6Loop ip zeroStart zeroEnd fuel (i + 1) (appendHex ret (v6u16 ip i))
      else
        let ret := if i > 0 then ret ++ [58] else ret
        string6Loop ip zeroStart zeroEnd fuel (i + 1) (appendHex ret (v6u16 ip i))
    else ret

/-- Model of `netip.Addr.string6` (no zone): RFC 5952 text of a 16-byte
address. -/
def string6 (ip : List Byte) : GoString :=
  let z := longestZeroRun ip
  string6Loop ip z.1 z.2 9 0 []

/-- Model of `net.IP.String`: `"<nil>"` for the empty slice, `"?"` and the hex
digits for a length other than 4 and 16, dotted quad when `To4` succeeds
(so also for an IPv4-mapped 16-byte address), IPv6 text otherwise. -/
def IPString (ip : List Byte) : GoString :=
  if ip.length = 0 then [60, 110, 105, 108, 62]
  else if ip.length ≠ 4 ∧ ip.length ≠ 16 then 63 :: hexEncode ip
  else
    match To4 ip with
    | some p4 => string4 p4
    | none => string6 ip

/-- Model of `net.JoinHostPort`: the host is bracketed when it contains a
colon. -/
def JoinHostPort (host port : GoString) : GoString :=
  if (58 : Byte) ∈ host then [91] ++ host ++ [93, 58] ++ port
  else host ++ [58] ++ port

/-- Model of `VLESSHeader.GetDestination`. -/
def GetDestination (header : VLESSHeader) : GoString :=
  let address : GoString :=
    if header.AddressType = AddressTypeIPv4 then IPString header.Address
    else if header.AddressType = AddressTypeIPv6 then IPString header.Address
    else if header.AddressType = AddressTypeDomain then header.Address
    else []
  JoinHostPort address (Itoa header.Port)

/-! ## Identifier rendering and parsing (`github.com/google/uuid`) -/

/-- Model of `uuid.FromBytes`: a copy of the 16 bytes, or the zero identifier
and an error flag for any other length. -/
def FromBytes (b : List Byte) : List Byte × Bool :=
  if b.length ≠ 16 then (List.replicate 16 0, true) else (b, false)

/-- Model of `UUID.String` (`encodeHex`): hex groups of 4, 2, 2, 2 and 6
bytes joined by hyphens. -/
def UUIDString (uuid : List Byte) : GoString :=
  hexEncode (uuid.take 4) ++ [45] ++ hexEncode ((uuid.drop 4).take 2) ++ [45]
    ++ hexEncode ((uuid.drop 6).take 2) ++ [45] ++ hexEncode ((uuid.drop 8).take 2)
    ++ [45] ++ hexEncode (uuid.drop 10)

/-- Model of `VLESSHeader.GetUUID`; the error of `FromBytes` is dropped. -/
def GetUUID (header : VLESSHeader) : GoString :=
  UUIDString (FromBytes header.UUID).1

/-- The table `xvalues`: the value of a hex digit, 255 for any other byte. -/
def xvalues (x : Byte) : Byte :=
  if 48 ≤ x.val ∧ x.val ≤ 57 then x - 48
  else if 65 ≤ x.val ∧ x.val ≤ 70 then x - 55
  else if 97 ≤ x.val ∧ x.val ≤ 102 then x - 87
  else 255

/-- Model of `xtob`: the byte of two hex digits and whether both are valid. -/
def xtob (x1 x2 : Byte) : Byte × Bool :=
  let b1 := xvalues x1
  let b2 := xvalues x2
  ((b1 <<< (4 : Byte)) ||| b2, b1 ≠ 255 && b2 ≠ 255)

/-- The errors of `uuid.Parse`. -/
inductive ParseError where
  | invalidLength (n : Nat)
  | invalidUrnPrefix
  | invalidFormat
deriving DecidableEq, Repr

/-- The decoding loops of `uuid.Parse`: one byte from the two digits at each
listed offset, stopping at the first invalid pair. -/
def parseHexAt (s : GoString) : List Nat → Except ParseError (List Byte)
  | [] => .ok []
  | x :: xs =>
    match xtob (byteAt s x) (byteAt s (x + 1)) with
    | (v, true) =>
      match parseHexAt s xs with
      | .ok vs => .ok (v :: vs)
      | .error e => .error e
    | (_, false) => .error .invalidFormat

/-- ASCII lower-casing, for the case-insensitive comparison of the
`urn:uuid:` prefix. -/
def toLowerByte (b : Byte) : Byte :=
  if 65 ≤ b.val ∧ b.val ≤ 90 then b + 32 else b

/-- The hyphen checks and the digit loop of the 36-byte form. -/
def parseHyphenated (s : GoString) : Except ParseError (List Byte) :=
  if byteAt s 8 ≠ 45 ∨ byteAt s 13 ≠ 45 ∨ byteAt s 18 ≠ 45 ∨ byteAt s 23 ≠ 45 then
    .error .invalidFormat
  else parseHexAt s [0, 2, 4, 6, 9, 11, 14, 16, 19, 21, 24, 26, 28, 30, 32, 34]

/-- Model of `uuid.Parse`: the hyphenated form, the same with the
`urn:uuid:` prefix or in braces, and the plain 32 digits. -/
def Parse (s : GoString) : Except ParseError (List Byte) :=
  if s.length = 36 then parseHyphenated s
  else if s.length = 36 + 9 then
    if (s.take 9).map toLowerByte ≠ [117, 114, 110, 58, 117, 117, 105, 100, 58] then
      .error .invalidUrnPrefix
    else parseHyphenated (s.drop 9)
  else if s.length = 36 + 2 then parseHyphenated (s.drop 1)
  else if s.length = 32 then
    parseHexAt s ((List.range 16).map (fun i => i * 2))
  else .error (.invalidLength s.length)

/-- Model of `utils.IsValidUUID`: whether `uuid.Parse` accepts the string. -/
def IsValidUUID (u : GoString) : Bool :=
  match Parse u with
  | .ok _ => true
  | .error _ => false

/-! ## Configuration (`internal/config/config.go`) -/

/-- A client record (`config.VLESSClient`). -/
structure VLESSClient where
  ID : GoString
  Flow : GoString
  Email : GoString
deriving DecidableEq, Repr

/-- The settings of a `vless` inbound (`config.VLESSSettings`); the fallbacks
play no part in the server and are left out. -/
structure VLESSSettings where
  Clients : List VLESSClient
  Decryption : GoString
deriving DecidableEq, Repr

/-- The camouflage settings (`config.RealitySettings`). -/
structure RealitySettings where
  Show : Bool
  Dest : GoString
  XVer : Int
  ServerNames : List GoString
  PrivateKey : GoString
  MinClientVer : GoString
  MaxClientVer : GoString
  MaxTimeDiff : Int
  ShortIds : List GoString
deriving DecidableEq, Repr

/-- The stream settings of an inbound (`config.StreamSettings`); a `nil`
pointer is `none`. The plain TLS settings are never read and are left out. -/
structure StreamSettings where
  Network : GoString
  Security : GoString
  RealitySettings : Option RealitySettings
deriving DecidableEq, Repr

/-- Why the settings of an inbound cannot be read as `VLESSSettings`:
`json.Marshal` or `json.Unmarshal` failed. -/
inductive SettingsError where
  | marshal
  | unmarshal
deriving DecidableEq, Repr

/-- One inbound (`config.InboundConfig`). The field `Settings` holds a generic
JSON value in the source; here it is the outcome of encoding that value with
`json.Marshal` and decoding the bytes with `json.Unmarshal` as
`VLESSSettings`, which is all `parseClients` does with it. -/
structure InboundConfig where
  Protocol : GoString
  Port : Int
  Settings : Except SettingsError VLESSSettings
  StreamSettings : Option StreamSettings

/-- The configuration (`config.Config`). -/
structure Config where
  Port : Int
  LogLevel : GoString
  Inbounds : List InboundConfig

/-! ## Camouflage layer (`internal/reality/reality.go`) -/

/-- The handler (`RealityHandler`); the logger is left out. -/
structure RealityHandler where
  config : RealitySettings
deriving DecidableEq, Repr

/-- Constructor `NewRealityHandler`. -/
def NewRealityHandler (cfg : RealitySettings) : RealityHandler :=
  { config := cfg }

/-- A server certificate (`tls.Certificate`): its chain of encoded
certificates; the zero value has an empty chain. -/
structure Certificate where
  Chain : List (List Byte)
deriving DecidableEq, Repr

/-- The fields of `tls.Config` that `createTLSConfig` sets. -/
structure TLSConfig where
  Certificates : List Certificate
  ServerName : GoString
  MinVersion : Nat
  MaxVersion : Nat
  CipherSuites : List Nat
  NextProtos : List GoString
deriving DecidableEq, Repr

/-- An error of the network or of a collaborator outside this repository,
known only by a code. -/
structure NetError where
  code : Nat
deriving DecidableEq, Repr

/-- The errors of the camouflage layer, one constructor per `fmt.Errorf`. -/
inductive RealityError where
  /-- The certificate generation is not implemented. -/
  | certNotImplemented
  /-- Wrapper of `createTLSConfig` around the error of the certificate. -/
  | generateCert (e : RealityError)
  /-- Wrapper of `WrapConnection` around the error of the configuration. -/
  | createTLSConfig (e : RealityError)
  /-- The TLS handshake failed. -/
  | handshake (e : NetError)
deriving DecidableEq, Repr

/-- A call to a collaborator, as recorded in the order it is made. -/
inductive Call where
  | Handshake
  | WrapConnection
  | ReadHeader
  | validateClient (uuid : GoString)
  | Dial (dest : GoString)
  | WriteResponse
  | Relay
  | Close
deriving DecidableEq, Repr

/-- The world outside the server: whether `net.DialTimeout("tcp", dest, 10s)`
fails, what `vless.Relay` returns and does to the client stream, what the
TLS handshake of `tls.Server(conn, cfg)` gives (the plaintext stream or an
error, and the raw stream afterwards), and whether a `Write` of some bytes on
the client stream fails (peer reset, deadline passed) and after how many
bytes. -/
structure Network where
  Dial : GoString → Option NetError
  Relay : GoString → Conn → Option NetError × Conn
  Handshake : TLSConfig → Conn → Except NetError Conn × Conn
  WriteError : Conn → List Byte → Option (NetError × Nat)

/-- Model of `generateSelfSignedCert`: the empty certificate and an error, on
every call. The comments of the function speak of a basic implementation that
returns an empty certificate for the time being; the statement it executes
returns the error. -/
def generateSelfSignedCert (_r : RealityHandler) : Certificate × Option RealityError :=
  ({ Chain := [] }, some .certNotImplemented)

/-- Model of `getServerName`: the first configured name, else `example.com`. -/
def getServerName (r : RealityHandler) : GoString :=
  match r.config.ServerNames with
  | name :: _ => name
  | [] => ascii "example.com"

/-- Model of `createTLSConfig`. -/
def createTLSConfig (r : RealityHandler) : Except RealityError TLSConfig :=
  match generateSelfSignedCert r with
  | (_, some err) => .error (.generateCert err)
  | (cert, none) =>
    .ok { Certificates := [cert]
          ServerName := getServerName r
          MinVersion := 0x0303
          MaxVersion := 0x0304
          CipherSuites := [0x1301, 0x1302, 0x1303, 0xc02c, 0xc030, 0xcca9, 0xcca8]
          NextProtos := [ascii "h2", ascii "http/1.1"] }

/-- Model of `WrapConnection`: the wrapped stream or an error, the raw stream
afterwards and the calls made. -/
def WrapConnection (r : RealityHandler) (net : Network) (conn : Conn) :
    Except RealityError Conn × Conn × List Call :=
  match createTLSConfig r with
  | .error err => (.error (.createTLSConfig err), conn, [])
  | .ok tlsConfig =>
    match net.Handshake tlsConfig conn with
    | (.error err, raw) => (.error (.handshake err), raw, [.Handshake])
    | (.ok tlsConn, raw) => (.ok tlsConn, raw, [.Handshake])

/-- Model of `ValidateShortID`: the loop over the configured short ids. -/
def ValidateShortID (r : RealityHandler) (shortID : GoString) : Bool :=
  go r.config.ShortIds
where
  /-- The loop `for _, validID := range r.config.ShortIds`. -/
  go : List GoString → Bool
    | [] => false
    | validID :: rest => if shortID = validID then true else go rest

/-- The errors of a single `conn.Read`. -/
inductive ReadError where
  /-- The stream has ended. -/
  | EOF
  /-- The read deadline passed before any byte arrived. -/
  | timeout
deriving DecidableEq, Repr

/-- Model of one `conn.Read(buf)` with `len(buf) = n` when `avail` bytes arrive
before the deadline: the bytes that arrived, at most `n` of them, are taken. -/
def Conn.Read (c : Conn) (n avail : Nat) : Except ReadError (List Byte) × Conn :=
  if c.unread = [] then (.error .EOF, c)
  else if avail = 0 then (.error .timeout, c)
  else (.ok (c.unread.take (min n avail)), { c with unread := c.unread.drop (min n avail) })

/-- Model of `IsRealityConnection`: one read into a buffer of 1024 bytes, then
the checks on the count and on the first three bytes. The deadline is set
before and cleared after; `avail` says how many bytes arrive in time. -/
def IsRealityConnection (conn : Conn) (avail : Nat) : Bool × Conn :=
  match conn.Read 1024 avail with
  | (.error _, c) => (false, c)
  | (.ok buffer, c) =>
    let n := buffer.length
    if n < 6 then (false, c)
    else if byteAt buffer 0 ≠ 22 then (false, c)
    else if byteAt buffer 1 ≠ 3 ∨ (byteAt buffer 2 ≠ 1 ∧ byteAt buffer 2 ≠ 3) then (false, c)
    else (true, c)

/-! ## Server (`internal/server/server.go`) -/

/-- The client registry `map[string]*config.VLESSClient`: at most one entry per
key; a stored pointer is modelled by the record it designates. -/
abbrev ClientMap := AList (fun _ : GoString => VLESSClient)

/-- The server state (`Server`); listener, logger and lock are left out. -/
structure Server where
  config : Config
  clients : ClientMap
  reality : Option RealityHandler

/-- The errors of `parseClients` and `NewServer`. -/
inductive ServerError where
  /-- The settings of a `vless` inbound could not be encoded. -/
  | marshalSettings
  /-- The settings of a `vless` inbound could not be decoded. -/
  | unmarshalSettings
  /-- No client was found in any `vless` inbound. -/
  | noClients
  /-- Wrapper of `NewServer` around the error of `parseClients`. -/
  | parseClients (e : ServerError)
  /-- Wrapper of `NewServer` around the error of `initReality`. -/
  | initReality (e : ServerError)
deriving DecidableEq, Repr

/-- The protocol name compared with `inbound.Protocol`. -/
def protocolVLESS : GoString := ascii "vless"

/-- The inner loop of `parseClients`:
`for _, client := range vlessSettings.Clients { s.clients[client.ID] = &client }`.
With one variable `client` per iteration (Go 1.22 and later) each entry
designates its own record; with one variable for the whole loop (earlier Go)
every entry written by the loop designates what the variable holds at the end,
the last record of the list `all`. The keys are the same in both cases. -/
def insertClients (perIteration : Bool) (all : List VLESSClient) :
    List VLESSClient → ClientMap → ClientMap
  | [], m => m
  | client :: rest, m =>
    insertClients perIteration all rest
      (m.insert client.ID (if perIteration then client else all.getLastD client))

/-- The outer loop of `parseClients` over the inbounds: the error it returns
early, if any, and the registry at that point. -/
def parseInbounds (perIteration : Bool) :
    List InboundConfig → ClientMap → Option ServerError × ClientMap
  | [], m => (none, m)
  | inbound :: rest, m =>
    if inbound.Protocol = protocolVLESS then
      match inbound.Settings with
      | .error .marshal => (some .marshalSettings, m)
      | .error .unmarshal => (some .unmarshalSettings, m)
      | .ok vlessSettings =>
        parseInbounds perIteration rest
          (insertClients perIteration vlessSettings.Clients vlessSettings.Clients m)
    else parseInbounds perIteration rest m

/-- Model of `parseClients`: the loops, then the check `len(s.clients) == 0`. -/
def parseClients (perIteration : Bool) (s : Server) : Option ServerError × Server :=
  match parseInbounds perIteration s.config.Inbounds s.clients with
  | (some err, m) => (some err, { s with clients := m })
  | (none, m) =>
    if m.entries.length = 0 then (some .noClients, { s with clients := m })
    else (none, { s with clients := m })

/-- The loop of `initReality`: the handler of the first inbound that has
camouflage settings. -/
def findReality : List InboundConfig → Option RealityHandler
  | [] => none
  | inbound :: rest =>
    match inbound.StreamSettings with
    | some streamSettings =>
      match streamSettings.RealitySettings with
      | some realitySettings => some (NewRealityHandler realitySettings)
      | none => findReality rest
    | none => findReality rest

/-- Model of `initReality`: it never fails; the handler is set when some
inbound has camouflage settings. -/
def initReality (s : Server) : Option ServerError × Server :=
  match findReality s.config.Inbounds with
  | some r => (none, { s with reality := some r })
  | none => (none, s)

/-- Model of `NewServer`: an empty registry, then `parseClients`, then
`initReality`. -/
def NewServer (perIteration : Bool) (cfg : Config) : Except ServerError Server :=
  let server : Server := { config := cfg, clients := ∅, reality := none }
  match parseClients perIteration server with
  | (some err, _) => .error (.parseClients err)
  | (none, server) =>
    match initReality server with
    | (some err, _) => .error (.initReality err)
    | (none, server) => .ok server

/-- Model of `validateClient`: the lookup `_, exists := s.clients[uuid]`, and
the server afterwards. -/
def validateClient (s : Server) (uuid : GoString) : Bool × Server :=
  ((s.clients.lookup uuid).isSome, s)

/-- Model of `AddClient`: `s.clients[client.ID] = client`. -/
def AddClient (s : Server) (client : VLESSClient) : Server :=
  { s with clients := s.clients.insert client.ID client }

/-- Model of `RemoveClient`: delete and report `true` when the key exists,
report `false` otherwise. -/
def RemoveClient (s : Server) (uuid : GoString) : Bool × Server :=
  if (s.clients.lookup uuid).isSome then
    (true, { s with clients := s.clients.erase uuid })
  else (false, s)

/-- Model of `GetClients`: the stored records, one per entry, in the order the
map is walked. -/
def GetClients (s : Server) : List VLESSClient :=
  s.clients.entries.map (fun e => e.2)

/-- Model of `conn.Write(data)` on the client stream as the outside world
leaves it: when `net.WriteError` gives an error and a count `n`, the first `n`
bytes of `data` are written and the error is returned; otherwise all of `data`
is written, as by `Conn.Write`. -/
def Network.Write (net : Network) (c : Conn) (data : List Byte) : Option NetError × Conn :=
  match net.WriteError c data with
  | some (err, n) => (some err, { c with written := c.written ++ data.take n })
  | none => (none, (c.Write data).2)

/-- Model of `VLESSConnection.WriteResponse` on the client stream as the
outside world leaves it: the same single `Write` of the two bytes
`{Version, 0}`, whose error is returned. -/
def Network.WriteResponse (net : Network) (vc : VLESSConnection) :
    Option NetError × VLESSConnection :=
  let response : List Byte := [Version, 0]
  let r := net.Write vc.conn response
  (r.1, { vc with conn := r.2 })

/-- The errors `handleVLESS` returns. -/
inductive HandleError where
  /-- The header could not be decoded. -/
  | readHeader (e : HeaderError)
  /-- The identifier is not registered. -/
  | invalidUUID (uuid : GoString)
  /-- The destination could not be dialed. -/
  | dial (e : NetError)
  /-- The acknowledgement could not be written. -/
  | writeResponse (e : NetError)
  /-- The error `Relay` returned, passed on as is. -/
  | relay (e : NetError)
deriving DecidableEq, Repr

/-- What a call of `handleVLESS` leaves: the error returned, the client stream
afterwards, and the calls made in order. -/
structure Outcome where
  err : Option HandleError
  conn : Conn
  calls : List Call
deriving DecidableEq, Repr

/-- Model of `handleVLESS`: decode the header, check the identifier, dial the
destination, write the acknowledgement and return when that write fails,
relay. -/
def handleVLESS (s : Server) (net : Network) (conn : Conn) : Outcome :=
  let vlessConn := NewVLESSConnection conn
  match ReadHeader vlessConn with
  | (.error err, vlessConn) =>
    { err := some (.readHeader err), conn := vlessConn.conn, calls := [.ReadHeader] }
  | (.ok header, vlessConn) =>
    if ¬ (validateClient s (GetUUID header)).1 then
      { err := some (.invalidUUID (GetUUID header)), conn := vlessConn.conn,
        calls := [.ReadHeader, .validateClient (GetUUID header)] }
    else
      match net.Dial (GetDestination header) with
      | some err =>
        { err := some (.dial err), conn := vlessConn.conn,
          calls := [.ReadHeader, .validateClient (GetUUID header),
                    .Dial (GetDestination header)] }
      | none =>
        match net.WriteResponse vlessConn with
        | (some err, vlessConn) =>
          { err := some (.writeResponse err), conn := vlessConn.conn,
            calls := [.ReadHeader, .validateClient (GetUUID header),
                      .Dial (GetDestination header), .WriteResponse] }
        | (none, vlessConn) =>
          let r := net.Relay (GetDestination header) vlessConn.conn
          { err := r.1.map .relay, conn := r.2,
            calls := [.ReadHeader, .validateClient (GetUUID header),
                      .Dial (GetDestination header), .WriteResponse, .Relay] }

/-- The error `handleConnection` logs. -/
inductive ConnectionError where
  | reality (e : RealityError)
  | vless (e : HandleError)
deriving DecidableEq, Repr

/-- What a call of `handleConnection` leaves: the error logged, the raw
accepted stream afterwards, the stream `handleVLESS` ran on (if it ran), and
the calls made in order; the last call closes the accepted stream. -/
structure ConnectionOutcome where
  logged : Option ConnectionError
  raw : Conn
  stream : Option Conn
  calls : List Call
deriving DecidableEq, Repr

/-- Model of `handleConnection`: wrap the stream when camouflage is
configured and stop when that fails, else run `handleVLESS`; the accepted
stream is closed at the end in every case. -/
def handleConnection (s : Server) (net : Network) (conn : Conn) : ConnectionOutcome :=
  match s.reality with
  | some r =>
    match WrapConnection r net conn with
    | (.error err, raw, calls) =>
      { logged := some (.reality err), raw := raw, stream := none,
        calls := [.WrapConnection] ++ calls ++ [.Close] }
    | (.ok wrappedConn, raw, calls) =>
      let o := handleVLESS s net wrappedConn
      { logged := o.err.map .vless, raw := raw, stream := some o.conn,
        calls := [.WrapConnection] ++ calls ++ o.calls ++ [.Close] }
  | none =>
    let o := handleVLESS s net conn
    { logged := o.err.map .vless, raw := o.conn, stream := some o.conn,
      calls := o.calls ++ [.Close] }

/-- The client identifiers a configuration lists for the tunneling protocol:
the ids of the client records in the settings of every inbound whose protocol
is `vless`, in order. -/
def configuredClientIDs : List InboundConfig → List GoString
  | [] => []
  | inbound :: rest =>
    if inbound.Protocol = protocolVLESS then
      match inbound.Settings with
      | .ok vlessSettings => vlessSettings.Clients.map (fun c => c.ID) ++ configuredClientIDs rest
      | .error _ => configuredClientIDs rest
    else configuredClientIDs rest

/-! ## Inputs of the scenarios -/

/-- The identifier used in the examples: sixteen bytes `0x07`, rendered as
`07070707-0707-0707-0707-070707070707`. -/
def scenarioUUID : List Byte := List.replicate 16 7

/-- The stream of scenario 1 (port 80, IPv4 93.184.216.34) with the command
byte `cmd`. -/
def scenarioStream (cmd : Byte) : Conn :=
  { unread := [0] ++ scenarioUUID ++ [0, cmd, 0x00, 0x50, 0x01, 93, 184, 216, 34],
    written := [] }

/-- A server without camouflage whose registry holds the identifier of the
examples. -/
def scenarioServer : Server :=
  AddClient { config := { Port := 443, LogLevel := [], Inbounds := [] }, clients := ∅,
              reality := none }
    { ID := ascii "07070707-0707-0707-0707-070707070707", Flow := [], Email := [] }

/-- A network on which every dial succeeds, the relay ends without error and
leaves the client stream as it is, the handshake hands the stream on and no
write fails. -/
def openNetwork : Network :=
  { Dial := fun _ => none
    Relay := fun _ c => (none, c)
    Handshake := fun _ c => (.ok c, c)
    WriteError := fun _ _ => none }

/-- The same network, except that the client has reset its stream: every write
on it fails with the error 104 before any byte is written. -/
def resetNetwork : Network :=
  { Dial := fun _ => none
    Relay := fun _ c => (none, c)
    Handshake := fun _ c => (.ok c, c)
    WriteError := fun _ _ => some ({ code := 104 }, 0) }

/-! ## Predicates used in the statements -/

/-- The wire form `wire` of the address payload `addr` for the type tag `t`,
following the layout of the header: the raw 4 or 16 bytes, or a length byte
and the host bytes. -/
def AddressWire (t : Byte) (addr wire : List Byte) : Prop :=
  (t = 1 ∧ addr.length = 4 ∧ wire = addr) ∨
  (t = 2 ∧ addr.length < 256 ∧ wire = Fin.ofNat addr.length :: addr) ∨
  (t = 3 ∧ addr.length = 16 ∧ wire = addr)

/-- Whether a 16-byte address is IPv4-mapped (`::ffff:a.b.c.d`): ten zero
bytes, then `0xff 0xff`. -/
def isIPv4Mapped (ip : List Byte) : Bool :=
  (ip.take 10).all (fun b => b = 0) && byteAt ip 10 = 0xff && byteAt ip 11 = 0xff

/-! # Theorems -/

/-! ## Reading from a stream -/

@[simp] theorem byteAt_cons_zero (a : Byte) (l : List Byte) : byteAt (a :: l) 0 = a := rfl

@[simp] theorem byteAt_cons_succ (a : Byte) (l : List Byte) (n : Nat) :
    byteAt (a :: l) (n + 1) = byteAt l n := rfl

theorem ReadFull_append (xs ys w : List Byte) :
    ReadFull xs.length { unread := xs ++ ys, written := w }
      = (.ok xs, { unread := ys, written := w }) := by
  cases xs with
  | nil => simp [ReadFull]
  | cons x xs => simp [ReadFull]

theorem ReadFull_of_length {n : Nat} {xs : List Byte} (h : xs.length = n) (ys w : List Byte) :
    ReadFull n { unread := xs ++ ys, written := w }
      = (.ok xs, { unread := ys, written := w }) := by
  subst h; exact ReadFull_append xs ys w

theorem ReadFull_one (b : Byte) (ys w : List Byte) :
    ReadFull 1 { unread := b :: ys, written := w }
      = (.ok [b], { unread := ys, written := w }) :=
  ReadFull_append [b] ys w

theorem ReadFull_two (a b : Byte) (ys w : List Byte) :
    ReadFull 2 { unread := a :: b :: ys, written := w }
      = (.ok [a, b], { unread := ys, written := w }) :=
  ReadFull_append [a, b] ys w

/-- A successful read returns a prefix of the unread bytes and leaves the rest. -/
theorem ReadFull_ok {n : Nat} {c c' : Conn} {b : List Byte}
    (h : ReadFull n c = (.ok b, c')) :
    b.length = n ∧ c.unread = b ++ c'.unread ∧ c'.written = c.written := by
  unfold ReadFull at h
  split_ifs at h with h0 h1 h2
  · simp only [Prod.mk.injEq, Except.ok.injEq] at h
    obtain ⟨hb, hc⟩ := h
    subst hb hc h0
    simp
  · simp only [Prod.mk.injEq, Except.ok.injEq] at h
    obtain ⟨hb, hc⟩ := h
    subst hb hc
    simp [h1]
  · simp at h
  · simp at h

/-- A failed read means the stream was too short; it is left drained. -/
theorem ReadFull_error {n : Nat} {c c' : Conn} {e : IOError}
    (h : ReadFull n c = (.error e, c')) :
    c.unread.length < n ∧ c'.unread = [] ∧ c'.written = c.written
      ∧ e = (if c.unread = [] then .EOF else .ErrUnexpectedEOF) := by
  unfold ReadFull at h
  split_ifs at h with h0 h1 h2
  · simp at h
  · simp at h
  · simp only [Prod.mk.injEq, Except.error.injEq] at h
    obtain ⟨he, hc⟩ := h
    subst he hc
    simp [h2]; omega
  · simp only [Prod.mk.injEq, Except.error.injEq] at h
    obtain ⟨he, hc⟩ := h
    subst he hc
    simp only [h2, if_false, and_self, and_true]; omega

/-- On a stream that is too short `ReadFull` fails and drains it. -/
theorem ReadFull_short {n : Nat} {c : Conn} (h : c.unread.length < n) :
    ReadFull n c = (.error (if c.unread = [] then .EOF else .ErrUnexpectedEOF),
      { c with unread := [] }) := by
  unfold ReadFull
  have h0 : n ≠ 0 := by omega
  have h1 : ¬ n ≤ c.unread.length := by omega
  by_cases h2 : c.unread = []
  · simp [h0, h1, h2]
    cases c; simp_all
  · simp [h0, h1, h2]

theorem bigEndianUint16_pair (hi lo : Byte) :
    bigEndianUint16 [hi, lo] = 256 * hi.val + lo.val := by
  have h1 : hi.val < 256 := hi.isLt
  have h2 : lo.val < 256 := lo.isLt
  simp only [bigEndianUint16, byteAt, List.getD_cons_succ, List.getD_cons_zero]
  rw [Nat.lor_comm, Nat.shiftLeft_eq, Nat.mul_comm,
    ← Nat.mul_add_lt_is_or (show lo.val < 2 ^ 8 by simp)]
  omega

/-! ## The header decoder -/

theorem addOn_skip (N : Byte) (addon ys w : List Byte) (h : addon.length = N.val) :
    (if N > 0 then ReadFull N.val { unread := addon ++ ys, written := w }
      else (.ok [], { unread := addon ++ ys, written := w }))
      = ((.ok addon : Except IOError (List Byte)), ({ unread := ys, written := w } : Conn)) := by
  split_ifs with hN
  · exact ReadFull_of_length h ys w
  · have hN0 : N = 0 := by simpa using Fin.not_lt.mp hN
    subst hN0
    have h' : addon = [] := List.length_eq_zero.mp h
    subst h'; rfl

theorem readAddress_wire (t : Byte) (addr wire rest w : List Byte)
    (h : AddressWire t addr wire) :
    readAddress t { unread := wire ++ rest, written := w }
      = (.ok addr, { unread := rest, written := w }) := by
  rcases h with ⟨ht, hl, hw⟩ | ⟨ht, hl, hw⟩ | ⟨ht, hl, hw⟩
  · subst ht hw
    simp [readAddress, AddressTypeIPv4, ReadFull_of_length hl]
  · subst ht hw
    have hv : (Fin.ofNat addr.length : Byte).val = addr.length := by
      simp [Fin.ofNat, Nat.mod_eq_of_lt hl]
    simp [readAddress, AddressTypeIPv4, AddressTypeIPv6, AddressTypeDomain, ReadFull_one,
      byteAt, ReadFull_of_length hv.symm]
  · subst ht hw
    simp [readAddress, AddressTypeIPv4, AddressTypeIPv6, ReadFull_of_length hl]

/-- The fixed fields of a header whose version, identifier, addon, command and
port are well formed are read in order, which leaves the decoder at the
address-type byte. -/
theorem ReadHeader_fixed_fields (uuid addon tail w : List Byte) (N c hi lo t : Byte)
    (old : Option VLESSHeader) (huuid : uuid.length = 16) (haddon : addon.length = N.val) :
    ReadHeader
        { conn := { unread := [0] ++ uuid ++ [N] ++ addon ++ [c, hi, lo, t] ++ tail,
                    written := w },
          header := old }
      = match readAddress t { unread := tail, written := w } with
        | (.error e, c') => (.error e, { conn := c', header := old })
        | (.ok address, c') =>
          (.ok { Version := 0, UUID := uuid, AddOnLen := N, Command := c,
                 Port := 256 * hi.val + lo.val, AddressType := t, Address := address },
           { conn := c',
             header := some { Version := 0, UUID := uuid, AddOnLen := N, Command := c,
                              Port := 256 * hi.val + lo.val, AddressType := t,
                              Address := address } }) := by
  simp only [ReadHeader, List.singleton_append, List.cons_append, List.append_assoc,
    List.nil_append, ReadFull_one, byteAt, List.getD_cons_zero, Version, ne_eq,
    not_true_eq_false, if_false, ReadFull_of_length huuid]
  rw [addOn_skip N addon _ w haddon]
  simp only [ReadFull_one, ReadFull_two, List.getD_cons_zero]
  rcases readAddress t { unread := tail, written := w } with ⟨e | a, c'⟩
  · rfl
  · simp only [bigEndianUint16_pair]

/-- C1: on a stream that starts with a well-formed header in the wire layout
`ReadHeader` succeeds with the fields of the layout (the port is
`256 * hi + lo`, the address is the payload without the length byte of a
domain), the addon bytes are in no field of the result, and exactly the header
bytes are consumed: the bytes after the header are left unread. -/
theorem ReadHeader_wellformed (uuid addon addr wire rest w : List Byte)
    (N c hi lo t : Byte) (old : Option VLESSHeader)
    (huuid : uuid.length = 16) (haddon : addon.length = N.val)
    (haddr : AddressWire t addr wire) :
    ReadHeader
        { conn := { unread := [0] ++ uuid ++ [N] ++ addon ++ [c, hi, lo, t] ++ wire ++ rest,
                    written := w },
          header := old }
      = (.ok { Version := 0, UUID := uuid, AddOnLen := N, Command := c,
               Port := 256 * hi.val + lo.val, AddressType := t, Address := addr },
         { conn := { unread := rest, written := w },
           header := some { Version := 0, UUID := uuid, AddOnLen := N, Command := c,
                            Port := 256 * hi.val + lo.val, AddressType := t,
                            Address := addr } }) := by
  rw [List.append_assoc _ wire rest,
    ReadHeader_fixed_fields uuid addon (wire ++ rest) w N c hi lo t old huuid haddon,
    readAddress_wire t addr wire rest w haddr]

/-- C1 at the input of scenario 1 followed by two more bytes. -/
theorem ReadHeader_wellformed_witness :
    ReadHeader
        { conn := { unread := [0] ++ List.replicate 16 7 ++ [0] ++ [] ++ [1, 0, 80, 1]
                      ++ [93, 184, 216, 34] ++ [9, 9],
                    written := [] },
          header := none }
      = (.ok { Version := 0, UUID := List.replicate 16 7, AddOnLen := 0, Command := 1,
               Port := 256 * (0 : Byte).val + (80 : Byte).val, AddressType := 1,
               Address := [93, 184, 216, 34] },
         { conn := { unread := [9, 9], written := [] },
           header := some { Version := 0, UUID := List.replicate 16 7, AddOnLen := 0,
                            Command := 1, Port := 256 * (0 : Byte).val + (80 : Byte).val,
                            AddressType := 1, Address := [93, 184, 216, 34] } }) :=
  ReadHeader_wellformed (List.replicate 16 7) [] [93, 184, 216, 34] [93, 184, 216, 34]
    [9, 9] [] 0 1 0 80 1 none (by decide) (by decide) (Or.inl ⟨rfl, rfl, rfl⟩)

/-- C2: when the first byte of the stream is not the supported version 0,
`ReadHeader` fails with the unsupported-version error and has consumed that
first byte only. -/
theorem ReadHeader_unsupported_version (v : Byte) (rest w : List Byte)
    (old : Option VLESSHeader) (hv : v ≠ 0) :
    ReadHeader { conn := { unread := v :: rest, written := w }, header := old }
      = (.error (.unsupportedVersion v),
         { conn := { unread := rest, written := w }, header := old }) := by
  simp [ReadHeader, ReadFull_one, byteAt, Version, hv]

/-- C2 at the stream of scenario 3: version byte 1, then two more bytes. -/
theorem ReadHeader_unsupported_version_witness :
    (1 : Byte) ≠ 0 ∧
    ReadHeader { conn := { unread := [1, 2, 3], written := [] }, header := none }
      = (.error (.unsupportedVersion 1),
         { conn := { unread := [2, 3], written := [] }, header := none }) :=
  ⟨by decide, ReadHeader_unsupported_version 1 [2, 3] [] none (by decide)⟩

/-- The outcome of `ReadHeader` by the length of the stream: a short read
that drains the stream, or a bad version byte (only that byte is consumed),
or the stream holds the 22 bytes up to and including the address type. -/
theorem ReadHeader_cases (vc : VLESSConnection) :
    (∃ e, (ReadHeader vc).1 = .error e ∧ e.isTruncation = true
        ∧ (ReadHeader vc).2.conn.unread = [] ∧ byteAt vc.conn.unread 0 = 0)
    ∨ (∃ v rest, vc.conn.unread = v :: rest ∧ v ≠ 0
        ∧ (ReadHeader vc).1 = .error (.unsupportedVersion v)
        ∧ (ReadHeader vc).2.conn.unread = rest)
    ∨ 22 ≤ vc.conn.unread.length := by
  generalize hr : ReadHeader vc = r
  unfold ReadHeader at hr
  split at hr
  · next e c h =>
    subst hr
    obtain ⟨hlt, hu, -, -⟩ := ReadFull_error h
    have : vc.conn.unread = [] := List.length_eq_zero.mp (by omega)
    exact Or.inl ⟨_, rfl, rfl, hu, by simp [this, byteAt]⟩
  next b1 c1 h1 =>
  obtain ⟨hb1, hu1, -⟩ := ReadFull_ok h1
  obtain ⟨v, rfl⟩ := List.length_eq_one.mp hb1
  simp only [byteAt, List.getD_cons_zero] at hr
  split_ifs at hr with hv
  · subst hr
    exact Or.inr (Or.inl ⟨v, c1.unread, by simpa using hu1, hv, rfl, rfl⟩)
  have hv0 : byteAt vc.conn.unread 0 = 0 := by
    simp only [ne_eq, Decidable.not_not] at hv
    simp [hu1, byteAt, hv, Version]
  split at hr
  · next e c h =>
    subst hr
    exact Or.inl ⟨_, rfl, rfl, (ReadFull_error h).2.1, hv0⟩
  next b2 c2 h2 =>
  obtain ⟨hb2, hu2, -⟩ := ReadFull_ok h2
  split at hr
  · next e c h =>
    subst hr
    exact Or.inl ⟨_, rfl, rfl, (ReadFull_error h).2.1, hv0⟩
  next b3 c3 h3 =>
  obtain ⟨hb3, hu3, -⟩ := ReadFull_ok h3
  split at hr
  · next e c h =>
    subst hr
    refine Or.inl ⟨_, rfl, rfl, ?_, hv0⟩
    split_ifs at h with hN
    · exact (ReadFull_error h).2.1
    · simp at h
  next b4 c4 h4 =>
  have hu4 : c3.unread.length = b4.length + c4.unread.length := by
    split_ifs at h4 with hN
    · rw [(ReadFull_ok h4).2.1, List.length_append]
    · simp only [Prod.mk.injEq, Except.ok.injEq] at h4
      rw [← h4.1, ← h4.2]; simp
  split at hr
  · next e c h =>
    subst hr
    exact Or.inl ⟨_, rfl, rfl, (ReadFull_error h).2.1, hv0⟩
  next b5 c5 h5 =>
  obtain ⟨hb5, hu5, -⟩ := ReadFull_ok h5
  split at hr
  · next e c h =>
    subst hr
    exact Or.inl ⟨_, rfl, rfl, (ReadFull_error h).2.1, hv0⟩
  next b6 c6 h6 =>
  obtain ⟨hb6, hu6, -⟩ := ReadFull_ok h6
  split at hr
  · next e c h =>
    subst hr
    exact Or.inl ⟨_, rfl, rfl, (ReadFull_error h).2.1, hv0⟩
  next b7 c7 h7 =>
  obtain ⟨hb7, hu7, -⟩ := ReadFull_ok h7
  refine Or.inr (Or.inr ?_)
  have := congrArg List.length hu1
  have := congrArg List.length hu2
  have := congrArg List.length hu3
  have := congrArg List.length hu5
  have := congrArg List.length hu6
  have := congrArg List.length hu7
  simp only [List.length_append, List.length_cons, List.length_nil] at *
  omega

/-- C3 fails as stated: the one-byte stream `[1]` is shorter than 21 bytes
and is rejected with the unsupported-version error, which is no short read. -/
theorem ReadHeader_short_stream_counterexample :
    ([1] : List Byte).length < 21 ∧
    (ReadHeader { conn := { unread := [1], written := [] }, header := none }).1
      = .error (.unsupportedVersion 1) ∧
    (HeaderError.unsupportedVersion 1).isTruncation = false :=
  ⟨by decide, rfl, rfl⟩

/-- C3, amended: on a stream shorter than 21 bytes `ReadHeader` fails and
returns no header; the error is a short read that drains the stream when the
stream is empty or starts with the version 0, and it is the unsupported-version
error, with one byte consumed, when the first byte is not 0. What is left
unread is always a suffix of the stream. -/
theorem ReadHeader_short_stream (s w : List Byte) (old : Option VLESSHeader)
    (hs : s.length < 21) :
    ∃ e, (ReadHeader { conn := { unread := s, written := w }, header := old }).1 = .error e
      ∧ ((s = [] ∨ s.head? = some 0) → e.isTruncation = true
          ∧ (ReadHeader { conn := { unread := s, written := w }, header := old }).2.conn.unread
              = [])
      ∧ (∀ v, s.head? = some v → v ≠ 0 → e = .unsupportedVersion v
          ∧ (ReadHeader { conn := { unread := s, written := w }, header := old }).2.conn.unread
              = s.tail)
      ∧ (ReadHeader { conn := { unread := s, written := w }, header := old }).2.conn.unread
          <:+ s := by
  rcases ReadHeader_cases { conn := { unread := s, written := w }, header := old } with
    ⟨e, he, ht, hu, h0⟩ | ⟨v, rest, hs', hv, he, hu⟩ | hlen
  · refine ⟨e, he, fun _ => ⟨ht, hu⟩, ?_, ?_⟩
    · intro v hv hne
      exfalso
      cases s with
      | nil => simp at hv
      | cons a s =>
        simp only [List.head?_cons, Option.some.injEq] at hv
        subst hv
        simp [byteAt] at h0
        exact hne h0
    · rw [hu]; exact List.nil_suffix
  · simp only at hs'
    subst hs'
    refine ⟨_, he, ?_, ?_, ?_⟩
    · rintro (h | h)
      · simp at h
      · simp only [List.head?_cons, Option.some.injEq] at h
        exact absurd h hv
    · intro v' hv' _
      simp only [List.head?_cons, Option.some.injEq] at hv'
      subst hv'
      exact ⟨rfl, by simpa using hu⟩
    · rw [hu]; exact List.suffix_cons v rest
  · simp only at hlen
    omega

/-- C3 amended, at the stream `[0, 5, 6]`: the identifier is cut short. -/
theorem ReadHeader_short_stream_witness :
    ∃ e, (ReadHeader { conn := { unread := [0, 5, 6], written := [] }, header := none }).1
        = .error e
      ∧ ((([0, 5, 6] : List Byte) = [] ∨ ([0, 5, 6] : List Byte).head? = some 0) →
          e.isTruncation = true
          ∧ (ReadHeader { conn := { unread := [0, 5, 6], written := [] },
                          header := none }).2.conn.unread = [])
      ∧ (∀ v, ([0, 5, 6] : List Byte).head? = some v → v ≠ 0 → e = .unsupportedVersion v
          ∧ (ReadHeader { conn := { unread := [0, 5, 6], written := [] },
                          header := none }).2.conn.unread = ([0, 5, 6] : List Byte).tail)
      ∧ (ReadHeader { conn := { unread := [0, 5, 6], written := [] },
                      header := none }).2.conn.unread <:+ [0, 5, 6] :=
  ReadHeader_short_stream [0, 5, 6] [] none (by decide)

/-- C4: when the header is well formed up to the address type and the type
byte is none of 1, 2, 3, `ReadHeader` fails with the unsupported-address-type
error, whatever follows the type byte, and every byte after the type byte is
left unread. -/
theorem ReadHeader_unsupported_address_type (uuid addon rest w : List Byte)
    (N c hi lo t : Byte) (old : Option VLESSHeader)
    (huuid : uuid.length = 16) (haddon : addon.length = N.val)
    (ht : t ≠ 1 ∧ t ≠ 2 ∧ t ≠ 3) :
    ReadHeader
        { conn := { unread := [0] ++ uuid ++ [N] ++ addon ++ [c, hi, lo, t] ++ rest,
                    written := w },
          header := old }
      = (.error (.unsupportedAddressType t),
         { conn := { unread := rest, written := w }, header := old }) := by
  rw [ReadHeader_fixed_fields uuid addon rest w N c hi lo t old huuid haddon]
  simp [readAddress, AddressTypeIPv4, AddressTypeIPv6, AddressTypeDomain, ht.1, ht.2.1, ht.2.2]

/-- C4 at a header with address type 4 followed by six more bytes. -/
theorem ReadHeader_unsupported_address_type_witness :
    ReadHeader
        { conn := { unread := [0] ++ List.replicate 16 7 ++ [2] ++ [8, 9] ++ [1, 0, 80, 4]
                      ++ [93, 184, 216, 34, 9, 9],
                    written := [] },
          header := none }
      = (.error (.unsupportedAddressType 4),
         { conn := { unread := [93, 184, 216, 34, 9, 9], written := [] }, header := none }) :=
  ReadHeader_unsupported_address_type (List.replicate 16 7) [8, 9] [93, 184, 216, 34, 9, 9] []
    2 1 0 80 4 none (by decide) (by decide) (by decide)

/-- C5: for a header of address type 2 that is well formed up to the domain
length byte `L`, `ReadHeader` succeeds when at least `L` bytes follow the
length byte, with `Address` the first `L` of them and the rest left unread, and
fails with a short read on the domain when fewer follow. So `L = 0` gives the
empty host without error, and `L = 255` with 254 bytes following fails. -/
theorem ReadHeader_domain (uuid addon tail w : List Byte) (N c hi lo L : Byte)
    (old : Option VLESSHeader) (huuid : uuid.length = 16) (haddon : addon.length = N.val) :
    (L.val ≤ tail.length →
      ReadHeader
          { conn := { unread := [0] ++ uuid ++ [N] ++ addon ++ [c, hi, lo, 2] ++ (L :: tail),
                      written := w },
            header := old }
        = (.ok { Version := 0, UUID := uuid, AddOnLen := N, Command := c,
                 Port := 256 * hi.val + lo.val, AddressType := 2,
                 Address := tail.take L.val },
           { conn := { unread := tail.drop L.val, written := w },
             header := some { Version := 0, UUID := uuid, AddOnLen := N, Command := c,
                              Port := 256 * hi.val + lo.val, AddressType := 2,
                              Address := tail.take L.val } }))
    ∧ (tail.length < L.val →
      ReadHeader
          { conn := { unread := [0] ++ uuid ++ [N] ++ addon ++ [c, hi, lo, 2] ++ (L :: tail),
                      written := w },
            header := old }
        = (.error (.readDomain (if tail = [] then .EOF else .ErrUnexpectedEOF)),
           { conn := { unread := [], written := w }, header := old }))
    ∧ (L = 0 →
      (ReadHeader
          { conn := { unread := [0] ++ uuid ++ [N] ++ addon ++ [c, hi, lo, 2] ++ (L :: tail),
                      written := w },
            header := old }).1
        = .ok { Version := 0, UUID := uuid, AddOnLen := N, Command := c,
                Port := 256 * hi.val + lo.val, AddressType := 2, Address := [] })
    ∧ (L = 255 → tail.length = 254 →
      (ReadHeader
          { conn := { unread := [0] ++ uuid ++ [N] ++ addon ++ [c, hi, lo, 2] ++ (L :: tail),
                      written := w },
            header := old }).1
        = .error (.readDomain .ErrUnexpectedEOF)) := by
  have hok : L.val ≤ tail.length →
      readAddress 2 { unread := L :: tail, written := w }
        = (.ok (tail.take L.val), { unread := tail.drop L.val, written := w }) := by
    intro h
    have h1 : ReadFull L.val { unread := tail, written := w }
        = (.ok (tail.take L.val), { unread := tail.drop L.val, written := w }) := by
      have := @ReadFull_of_length L.val (tail.take L.val)
        (by simp [List.length_take, h]) (tail.drop L.val) w
      rwa [List.take_append_drop] at this
    simp [readAddress, AddressTypeIPv4, AddressTypeIPv6, AddressTypeDomain, ReadFull_one,
      byteAt, h1]
  have herr : tail.length < L.val →
      readAddress 2 { unread := L :: tail, written := w }
        = (.error (.readDomain (if tail = [] then .EOF else .ErrUnexpectedEOF)),
           { unread := [], written := w }) := by
    intro h
    have h1 := @ReadFull_short L.val { unread := tail, written := w } h
    simp only at h1
    simp [readAddress, AddressTypeIPv4, AddressTypeIPv6, AddressTypeDomain, ReadFull_one,
      byteAt, h1]
  rw [ReadHeader_fixed_fields uuid addon (L :: tail) w N c hi lo 2 old huuid haddon]
  refine ⟨fun h => ?_, fun h => ?_, fun h => ?_, fun h h' => ?_⟩
  · rw [hok h]
  · rw [herr h]
  · subst h
    rw [hok (Nat.zero_le _)]
    simp
  · subst h
    have hlt : tail.length < (255 : Byte).val := by rw [h']; decide
    have hne : tail ≠ [] := by
      intro h0; rw [h0] at h'; simp at h'
    rw [herr hlt]
    simp [hne]

/-- C5 at a header with an empty addon and the domain length 0, followed by
one more byte. -/
theorem ReadHeader_domain_witness :
    ReadHeader
        { conn := { unread := [0] ++ List.replicate 16 7 ++ [0] ++ [] ++ [1, 1, 187, 2]
                      ++ (0 :: [9]),
                    written := [] },
          header := none }
      = (.ok { Version := 0, UUID := List.replicate 16 7, AddOnLen := 0, Command := 1,
               Port := 256 * (1 : Byte).val + (187 : Byte).val, AddressType := 2,
               Address := List.take (0 : Byte).val [9] },
         { conn := { unread := List.drop (0 : Byte).val [9], written := [] },
           header := some { Version := 0, UUID := List.replicate 16 7, AddOnLen := 0,
                            Command := 1, Port := 256 * (1 : Byte).val + (187 : Byte).val,
                            AddressType := 2, Address := List.take (0 : Byte).val [9] } }) :=
  (ReadHeader_domain (List.replicate 16 7) [] [9] [] 0 1 1 187 0 none (by decide)
    (by decide)).1 (by decide)

/-- C6: `WriteResponse` appends exactly the two bytes `0x00, 0x00` (the
supported version and a zero addon length) to what was written, reports no
error, and does not depend on or change anything else: the unread input and
the remembered header stay as they were. -/
theorem WriteResponse_writes_ack (vc : VLESSConnection) :
    WriteResponse vc
      = (none, { conn := { unread := vc.conn.unread, written := vc.conn.written ++ [0, 0] },
                 header := vc.header }) := by
  rfl

/-! ## The identifier -/

theorem length_succ_cases {α : Type} {u : List α} {n : Nat} (h : u.length = n + 1) :
    ∃ a t, u = a :: t ∧ t.length = n := by
  cases u with
  | nil => simp at h
  | cons a t => exact ⟨a, t, rfl, by simpa using h⟩

/-- A list of length 16 is a list of 16 named elements. -/
theorem length_sixteen {u : List Byte} (h : u.length = 16) :
    ∃ b0 b1 b2 b3 b4 b5 b6 b7 b8 b9 b10 b11 b12 b13 b14 b15,
      u = [b0, b1, b2, b3, b4, b5, b6, b7, b8, b9, b10, b11, b12, b13, b14, b15] := by
  obtain ⟨b0, u1, rfl, h1⟩ := length_succ_cases h
  obtain ⟨b1, u2, rfl, h2⟩ := length_succ_cases h1
  obtain ⟨b2, u3, rfl, h3⟩ := length_succ_cases h2
  obtain ⟨b3, u4, rfl, h4⟩ := length_succ_cases h3
  obtain ⟨b4, u5, rfl, h5⟩ := length_succ_cases h4
  obtain ⟨b5, u6, rfl, h6⟩ := length_succ_cases h5
  obtain ⟨b6, u7, rfl, h7⟩ := length_succ_cases h6
  obtain ⟨b7, u8, rfl, h8⟩ := length_succ_cases h7
  obtain ⟨b8, u9, rfl, h9⟩ := length_succ_cases h8
  obtain ⟨b9, u10, rfl, h10⟩ := length_succ_cases h9
  obtain ⟨b10, u11, rfl, h11⟩ := length_succ_cases h10
  obtain ⟨b11, u12, rfl, h12⟩ := length_succ_cases h11
  obtain ⟨b12, u13, rfl, h13⟩ := length_succ_cases h12
  obtain ⟨b13, u14, rfl, h14⟩ := length_succ_cases h13
  obtain ⟨b14, u15, rfl, h15⟩ := length_succ_cases h14
  obtain ⟨b15, u16, rfl, h16⟩ := length_succ_cases h15
  have : u16 = [] := List.length_eq_zero.mp h16
  subst this
  exact ⟨b0, b1, b2, b3, b4, b5, b6, b7, b8, b9, b10, b11, b12, b13, b14, b15, rfl⟩

set_option maxRecDepth 100000 in
/-- The two hex digits written for a byte are read back as that byte. -/
theorem xtob_hex (b : Byte) :
    xtob (byteAt hextable (b.val >>> 4)) (byteAt hextable (b.val &&& 0x0f)) = (b, true) := by
  revert b; decide

set_option maxRecDepth 100000 in
/-- Both hex digits written for a byte are lowercase hex digits, not a hyphen. -/
theorem hex_digit_mem (b : Byte) :
    byteAt hextable (b.val >>> 4) ∈ hextable ∧ byteAt hextable (b.val &&& 0x0f) ∈ hextable := by
  revert b; decide

theorem UUIDString_parse (u : List Byte) (h : u.length = 16) :
    Parse (UUIDString u) = .ok u := by
  obtain ⟨b0, b1, b2, b3, b4, b5, b6, b7, b8, b9, b10, b11, b12, b13, b14, b15, rfl⟩ :=
    length_sixteen h
  simp [Parse, UUIDString, hexEncode, parseHyphenated, parseHexAt, byteAt_cons_zero,
    byteAt_cons_succ, xtob_hex]

/-- C7: for a 16-byte identifier `GetUUID` gives the canonical string: 36
characters, hyphens at offsets 8, 13, 18 and 23 (the 8-4-4-4-12 layout) and
lowercase hex digits everywhere else; `uuid.Parse` reads that string back as
the original 16 bytes, so `GetUUID` is injective on 16-byte identifiers. -/
theorem GetUUID_canonical_roundtrip (header : VLESSHeader) (h : header.UUID.length = 16) :
    (GetUUID header).length = 36
    ∧ (∀ i, i < 36 →
        if i = 8 ∨ i = 13 ∨ i = 18 ∨ i = 23 then byteAt (GetUUID header) i = 45
        else byteAt (GetUUID header) i ∈ hextable)
    ∧ Parse (GetUUID header) = .ok header.UUID
    ∧ (∀ other : VLESSHeader, other.UUID.length = 16 →
        GetUUID header = GetUUID other → header.UUID = other.UUID) := by
  have hrt : ∀ hd : VLESSHeader, hd.UUID.length = 16 → Parse (GetUUID hd) = .ok hd.UUID := by
    intro hd hl
    simp only [GetUUID, FromBytes, hl, ne_eq, not_true_eq_false, if_false]
    exact UUIDString_parse hd.UUID hl
  refine ⟨?_, ?_, hrt header h, ?_⟩
  · obtain ⟨b0, b1, b2, b3, b4, b5, b6, b7, b8, b9, b10, b11, b12, b13, b14, b15, hu⟩ :=
      length_sixteen h
    simp [GetUUID, FromBytes, hu, UUIDString, hexEncode]
  · obtain ⟨b0, b1, b2, b3, b4, b5, b6, b7, b8, b9, b10, b11, b12, b13, b14, b15, hu⟩ :=
      length_sixteen h
    intro i hi
    simp only [GetUUID, FromBytes, hu, UUIDString, hexEncode, List.length_cons,
      List.length_nil, ne_eq, not_true_eq_false, if_false, List.take, List.drop,
      List.cons_append, List.nil_append]
    interval_cases i <;>
      simp only [byteAt_cons_zero, byteAt_cons_succ, (hex_digit_mem _).1, (hex_digit_mem _).2] <;>
      simp
  · intro other ho heq
    have h1 := hrt header h
    rw [heq, hrt other ho] at h1
    exact (Except.ok.inj h1).symm

/-- C7 at the identifier `12345678-9abc-def0-0102-0304050607ff`. -/
theorem GetUUID_canonical_roundtrip_witness :
    Parse (GetUUID { Version := 0,
                     UUID := [0x12, 0x34, 0x56, 0x78, 0x9a, 0xbc, 0xde, 0xf0, 1, 2, 3, 4, 5,
                              6, 7, 0xff],
                     AddOnLen := 0, Command := 1, Port := 80, AddressType := 1,
                     Address := [93, 184, 216, 34] })
      = .ok [0x12, 0x34, 0x56, 0x78, 0x9a, 0xbc, 0xde, 0xf0, 1, 2, 3, 4, 5, 6, 7, 0xff] :=
  (GetUUID_canonical_roundtrip
    { Version := 0,
      UUID := [0x12, 0x34, 0x56, 0x78, 0x9a, 0xbc, 0xde, 0xf0, 1, 2, 3, 4, 5, 6, 7, 0xff],
      AddOnLen := 0, Command := 1, Port := 80, AddressType := 1,
      Address := [93, 184, 216, 34] } (by decide)).2.2.1

/-! ## Decimal rendering -/

/-- The byte of the character of a decimal digit. -/
theorem digitChar_byte {d : Nat} (hd : d < 10) :
    (Fin.ofNat (Nat.digitChar d).toNat : Byte) = byteAt hextable d := by
  interval_cases d <;> rfl

theorem toDigitsCore_map (fuel : Nat) : ∀ (n : Nat) (acc : List Char),
    (Nat.toDigitsCore 10 fuel n acc).map (fun ch => (Fin.ofNat ch.toNat : Byte))
      = itoaLoop fuel n (acc.map (fun ch => (Fin.ofNat ch.toNat : Byte))) := by
  induction fuel with
  | zero => intro n acc; rfl
  | succ fuel ih =>
    intro n acc
    have hd := digitChar_byte (Nat.mod_lt n (show 0 < 10 by decide))
    simp only [Nat.toDigitsCore, itoaLoop]
    split_ifs with h
    · simp [hd]
    · rw [ih]; simp [hd]

/-- `Itoa` is the decimal rendering of the standard library (`Nat.repr`). -/
theorem Itoa_eq_repr (n : Nat) : Itoa n = ascii (toString n) := by
  show Itoa n = ascii (Nat.repr n)
  simp only [Itoa, ascii, Nat.repr, Nat.toDigits, List.asString, String.toList]
  rw [toDigitsCore_map]
  rfl

/-- Every byte `itoaLoop` adds is a decimal digit. -/
theorem itoaLoop_digits (fuel : Nat) : ∀ (n : Nat) (acc : List Byte) (b : Byte),
    b ∈ itoaLoop fuel n acc → b ∈ acc ∨ (48 ≤ b.val ∧ b.val ≤ 57) := by
  induction fuel with
  | zero => intro n acc b hb; exact Or.inl hb
  | succ fuel ih =>
    intro n acc b hb
    have hdig : 48 ≤ (byteAt hextable (n % 10)).val ∧ (byteAt hextable (n % 10)).val ≤ 57 := by
      have : n % 10 < 10 := Nat.mod_lt n (by decide)
      interval_cases (n % 10) <;> decide
    simp only [itoaLoop] at hb
    split_ifs at hb with h
    · rcases List.mem_cons.mp hb with rfl | hb
      · exact Or.inr hdig
      · exact Or.inl hb
    · rcases ih _ _ _ hb with hb | hb
      · rcases List.mem_cons.mp hb with rfl | hb
        · exact Or.inr hdig
        · exact Or.inl hb
      · exact Or.inr hb

/-- A decimal rendering holds no colon. -/
theorem colon_not_mem_Itoa (n : Nat) : (58 : Byte) ∉ Itoa n := by
  intro h
  rcases itoaLoop_digits _ _ _ _ h with h | h
  · simp at h
  · have : ((58 : Byte).val) = 58 := rfl
    omega

theorem appendDecimal_append (b : List Byte) (x : Byte) :
    appendDecimal b x = b ++ appendDecimal [] x := by
  unfold appendDecimal
  split_ifs <;> simp

set_option maxRecDepth 100000 in
theorem appendDecimal_nil (x : Byte) : appendDecimal [] x = Itoa x.val := by
  revert x; decide

theorem string4_eq (a b c d : Byte) :
    string4 [a, b, c, d]
      = Itoa a.val ++ [46] ++ Itoa b.val ++ [46] ++ Itoa c.val ++ [46] ++ Itoa d.val := by
  simp only [string4, byteAt_cons_zero, byteAt_cons_succ]
  rw [appendDecimal_append _ d, appendDecimal_append _ c, appendDecimal_append _ b]
  simp only [appendDecimal_nil]

theorem colon_not_mem_string4 (a b c d : Byte) : (58 : Byte) ∉ string4 [a, b, c, d] := by
  rw [string4_eq]
  simp only [List.mem_append, List.mem_singleton, not_or]
  refine ⟨⟨⟨⟨⟨⟨colon_not_mem_Itoa _, by decide⟩, colon_not_mem_Itoa _⟩, by decide⟩,
    colon_not_mem_Itoa _⟩, by decide⟩, colon_not_mem_Itoa _⟩

/-- C8: for a header of address type 1 with the four address bytes `a b c d`
and the port `p`, `GetDestination` is `a.b.c.d:p`, each byte and the port in
decimal as the standard rendering of a natural number gives it (no leading
zeros); at the input of scenario 1 it is `93.184.216.34:80`. -/
theorem GetDestination_ipv4 (header : VLESSHeader) (a b c d : Byte)
    (hT : header.AddressType = 1) (hA : header.Address = [a, b, c, d]) :
    GetDestination header
        = ascii (toString a.val) ++ ascii "." ++ ascii (toString b.val) ++ ascii "."
          ++ ascii (toString c.val) ++ ascii "." ++ ascii (toString d.val) ++ ascii ":"
          ++ ascii (toString header.Port)
    ∧ GetDestination { Version := 0, UUID := List.replicate 16 7, AddOnLen := 0,
                       Command := 1, Port := bigEndianUint16 [0x00, 0x50],
                       AddressType := 1, Address := [93, 184, 216, 34] }
        = ascii "93.184.216.34:80" := by
  refine ⟨?_, by decide⟩
  have h4 : IPString [a, b, c, d] = string4 [a, b, c, d] := by
    simp [IPString, To4]
  have hdot : ascii "." = [46] := rfl
  have hcol : ascii ":" = [58] := rfl
  have hj : JoinHostPort (string4 [a, b, c, d]) (Itoa header.Port)
      = string4 [a, b, c, d] ++ [58] ++ Itoa header.Port := by
    simp only [JoinHostPort, colon_not_mem_string4, if_false]
  simp only [GetDestination, hT, hA, AddressTypeIPv4, if_true, h4]
  rw [hj, string4_eq]
  simp only [Itoa_eq_repr, hdot, hcol]

/-- C8 at the header of scenario 1. -/
theorem GetDestination_ipv4_witness :
    GetDestination { Version := 0, UUID := List.replicate 16 7, AddOnLen := 0,
                     Command := 1, Port := 80, AddressType := 1,
                     Address := [93, 184, 216, 34] }
      = ascii (toString (93 : Byte).val) ++ ascii "." ++ ascii (toString (184 : Byte).val)
          ++ ascii "." ++ ascii (toString (216 : Byte).val) ++ ascii "."
          ++ ascii (toString (34 : Byte).val) ++ ascii ":" ++ ascii (toString 80) :=
  (GetDestination_ipv4 { Version := 0, UUID := List.replicate 16 7, AddOnLen := 0,
                         Command := 1, Port := 80, AddressType := 1,
                         Address := [93, 184, 216, 34] } 93 184 216 34 rfl rfl).1

/-- C9 fails as stated: for the host `a:b` and the port 443 the result is
`[a:b]:443`, not the host followed by `:443`. -/
theorem GetDestination_domain_counterexample :
    GetDestination { Version := 0, UUID := List.replicate 16 7, AddOnLen := 0,
                     Command := 1, Port := 443, AddressType := 2, Address := ascii "a:b" }
      = ascii "[a:b]:443"
    ∧ GetDestination { Version := 0, UUID := List.replicate 16 7, AddOnLen := 0,
                       Command := 1, Port := 443, AddressType := 2, Address := ascii "a:b" }
      ≠ ascii "a:b" ++ ascii ":" ++ ascii "443" := by
  decide

/-- C9, amended: for a header of address type 2 whose host bytes hold no
colon, `GetDestination` is the host, a colon and the port in decimal; a host
that holds a colon is put in brackets first. At the input of scenario 4 the
result is `foo:443`. -/
theorem GetDestination_domain (header : VLESSHeader) (hT : header.AddressType = 2) :
    ((58 : Byte) ∉ header.Address →
      GetDestination header = header.Address ++ ascii ":" ++ ascii (toString header.Port))
    ∧ ((58 : Byte) ∈ header.Address →
      GetDestination header
        = ascii "[" ++ header.Address ++ ascii "]:" ++ ascii (toString header.Port))
    ∧ GetDestination { Version := 0, UUID := List.replicate 16 7, AddOnLen := 0,
                       Command := 1, Port := 443, AddressType := 2,
                       Address := [102, 111, 111] }
        = ascii "foo:443" := by
  have hcol : ascii ":" = [58] := rfl
  have hopen : ascii "[" = [91] := rfl
  have hclose : ascii "]:" = [93, 58] := rfl
  have hd : GetDestination header = JoinHostPort header.Address (Itoa header.Port) := by
    simp [GetDestination, hT, AddressTypeIPv4, AddressTypeIPv6, AddressTypeDomain]
  refine ⟨fun h => ?_, fun h => ?_, by decide⟩
  · rw [hd, JoinHostPort, if_neg h, Itoa_eq_repr, hcol]
  · rw [hd, JoinHostPort, if_pos h, Itoa_eq_repr, hopen, hclose]

/-- C9 amended, at the host `foo` and the port 443. -/
theorem GetDestination_domain_witness :
    GetDestination { Version := 0, UUID := List.replicate 16 7, AddOnLen := 0,
                     Command := 1, Port := 443, AddressType := 2,
                     Address := [102, 111, 111] }
      = [102, 111, 111] ++ ascii ":" ++ ascii (toString 443) :=
  (GetDestination_domain { Version := 0, UUID := List.replicate 16 7, AddOnLen := 0,
                           Command := 1, Port := 443, AddressType := 2,
                           Address := [102, 111, 111] } rfl).1 (by decide)

/-! ## IPv6 text -/

theorem mem_appendHex {a : Byte} {ret : List Byte} (x : Nat) (h : a ∈ ret) :
    a ∈ appendHex ret x := by
  unfold appendHex
  split_ifs <;> simp [h]

/-- A colon already written stays in the output of the printing loop. -/
theorem mem_string6Loop (ip : List Byte) (zs ze fuel : Nat) :
    ∀ (i : Nat) (ret : List Byte), (58 : Byte) ∈ ret →
      (58 : Byte) ∈ string6Loop ip zs ze fuel i ret := by
  induction fuel with
  | zero => intro i ret h; exact h
  | succ fuel ih =>
    intro i ret h
    simp only [string6Loop]
    split_ifs
    · simp [h]
    · exact ih _ _ (mem_appendHex _ (by simp))
    · exact ih _ _ (mem_appendHex _ (by simp))
    · exact ih _ _ (mem_appendHex _ h)
    · exact h

theorem string6Loop_succ (ip : List Byte) (zs ze fuel i : Nat) (ret : List Byte) :
    string6Loop ip zs ze (fuel + 1) i ret
      = if i < 8 then
          if i = zs then
            if ze ≥ 8 then ret ++ [58, 58]
            else string6Loop ip zs ze fuel (ze + 1) (appendHex (ret ++ [58, 58]) (v6u16 ip ze))
          else
            string6Loop ip zs ze fuel (i + 1)
              (appendHex (if i > 0 then ret ++ [58] else ret) (v6u16 ip i))
        else ret := rfl

/-- The printing loop writes a colon within its first two rounds. -/
theorem colon_mem_string6Loop (ip : List Byte) (zs ze : Nat) :
    (58 : Byte) ∈ string6Loop ip zs ze 9 0 [] := by
  rw [show (9 : Nat) = 8 + 1 from rfl, string6Loop_succ, if_pos (by decide)]
  by_cases h0 : 0 = zs
  · rw [if_pos h0]
    split_ifs
    · simp
    · exact mem_string6Loop _ _ _ _ _ _ (mem_appendHex _ (by simp))
  · rw [if_neg h0, show (8 : Nat) = 7 + 1 from rfl, string6Loop_succ, if_pos (by decide)]
    have hgt : (0 + 1 : Nat) > 0 := by decide
    by_cases h1 : 0 + 1 = zs
    · rw [if_pos h1]
      by_cases h8 : ze ≥ 8
      · rw [if_pos h8]; simp
      · rw [if_neg h8]
        exact mem_string6Loop _ _ _ _ _ _ (mem_appendHex _ (by simp))
    · rw [if_neg h1, if_pos hgt]
      exact mem_string6Loop _ _ _ _ _ _ (mem_appendHex _ (by simp))

/-- The IPv6 text of any address holds a colon. -/
theorem colon_mem_string6 (ip : List Byte) : (58 : Byte) ∈ string6 ip :=
  colon_mem_string6Loop ip _ _

theorem zeroRunEnd_succ (ip : List Byte) (fuel j : Nat) :
    zeroRunEnd ip (fuel + 1) j
      = if j < 8 ∧ v6u16 ip j = 0 then zeroRunEnd ip fuel (j + 1) else j := rfl

/-- The fuel 8 of the zero-run search is enough: more fuel changes nothing once
the fuel covers the groups that are left. -/
theorem zeroRunEnd_fuel (ip : List Byte) (fuel : Nat) :
    ∀ j, 8 ≤ fuel + j → zeroRunEnd ip (fuel + 1) j = zeroRunEnd ip fuel j := by
  induction fuel with
  | zero =>
    intro j h
    have : ¬ j < 8 := by omega
    simp [zeroRunEnd, this]
  | succ fuel ih =>
    intro j h
    rw [zeroRunEnd_succ ip (fuel + 1) j, zeroRunEnd_succ ip fuel j]
    by_cases hc : j < 8 ∧ v6u16 ip j = 0
    · rw [if_pos hc, if_pos hc]
      exact ih (j + 1) (by omega)
    · rw [if_neg hc, if_neg hc]

/-- The run chosen by the first loop is either absent (`255, 255`) or starts
within the eight groups and is at least two groups long. -/
theorem longestZeroRun_spec (ip : List Byte) :
    (longestZeroRun ip = (255, 255))
      ∨ ((longestZeroRun ip).1 < 8 ∧ (longestZeroRun ip).1 + 2 ≤ (longestZeroRun ip).2) := by
  have step : ∀ (l : List Nat) (z : Nat × Nat), (∀ i ∈ l, i < 8) →
      (z = (255, 255) ∨ (z.1 < 8 ∧ z.1 + 2 ≤ z.2)) →
      (l.foldl
          (fun z i =>
            let j := zeroRunEnd ip 8 i
            let l := j - i
            if l ≥ 2 ∧ l > z.2 - z.1 then (i, j) else z) z = (255, 255))
        ∨ ((l.foldl
              (fun z i =>
                let j := zeroRunEnd ip 8 i
                let l := j - i
                if l ≥ 2 ∧ l > z.2 - z.1 then (i, j) else z) z).1 < 8
            ∧ (l.foldl
                (fun z i =>
                  let j := zeroRunEnd ip 8 i
                  let l := j - i
                  if l ≥ 2 ∧ l > z.2 - z.1 then (i, j) else z) z).1 + 2
              ≤ (l.foldl
                  (fun z i =>
                    let j := zeroRunEnd ip 8 i
                    let l := j - i
                    if l ≥ 2 ∧ l > z.2 - z.1 then (i, j) else z) z).2) := by
    intro l
    induction l with
    | nil => intro z _ hz; exact hz
    | cons i l ih =>
      intro z hl hz
      simp only [List.foldl_cons]
      apply ih _ (fun k hk => hl k (List.mem_cons_of_mem _ hk))
      split_ifs with h
      · right
        have := hl i (List.mem_cons_self _ _)
        simp only
        omega
      · exact hz
  exact step (List.range 8) (255, 255) (fun i hi => List.mem_range.mp hi) (Or.inl rfl)

/-- More fuel does not change the printing loop once the fuel covers the
groups that are left. -/
theorem string6Loop_fuel (ip : List Byte) (zs ze : Nat) (hz : 8 ≤ zs ∨ zs < ze) (fuel : Nat) :
    ∀ (i : Nat) (ret : List Byte), 8 < fuel + i →
      string6Loop ip zs ze (fuel + 1) i ret = string6Loop ip zs ze fuel i ret := by
  induction fuel with
  | zero =>
    intro i ret h
    have : ¬ i < 8 := by omega
    simp [string6Loop, this]
  | succ fuel ih =>
    intro i ret h
    rw [string6Loop_succ ip zs ze (fuel + 1) i ret, string6Loop_succ ip zs ze fuel i ret]
    by_cases h8 : i < 8
    · rw [if_pos h8, if_pos h8]
      by_cases hi : i = zs
      · rw [if_pos hi, if_pos hi]
        by_cases he : ze ≥ 8
        · rw [if_pos he, if_pos he]
        · rw [if_neg he, if_neg he]
          exact ih (ze + 1) _ (by omega)
      · rw [if_neg hi, if_neg hi]
        exact ih (i + 1) _ (by omega)
    · rw [if_neg h8, if_neg h8]

/-- The fuel 9 of `string6` is enough: any larger fuel prints the same text. -/
theorem string6_fuel (ip : List Byte) (k : Nat) :
    string6Loop ip (longestZeroRun ip).1 (longestZeroRun ip).2 (9 + k) 0 [] = string6 ip := by
  have hz : 8 ≤ (longestZeroRun ip).1 ∨ (longestZeroRun ip).1 < (longestZeroRun ip).2 := by
    rcases longestZeroRun_spec ip with h | h
    · left; rw [h]; decide
    · right; omega
  induction k with
  | zero => rfl
  | succ k ih =>
    rw [← ih]
    exact string6Loop_fuel ip _ _ hz (9 + k) 0 [] (by omega)

/-- The IPv6 text of some well-known addresses. -/
theorem string6_examples :
    string6 (List.replicate 16 0) = ascii "::"
    ∧ string6 [0, 0, 0, 0, 0, 0, 0, 0, 0, 0, 0, 0, 0, 0, 0, 1] = ascii "::1"
    ∧ string6 [0x20, 0x01, 0x0d, 0xb8, 0, 0, 0, 0, 0, 0, 0, 0, 0, 0, 0, 1]
        = ascii "2001:db8::1"
    ∧ string6 [0, 1, 0, 0, 0, 0, 0, 1, 0, 0, 0, 0, 0, 0, 0, 5] = ascii "1:0:0:1::5"
    ∧ string6 [0xfe, 0x80, 0, 0, 0, 0, 0, 0, 0x02, 0x11, 0x22, 0xff, 0xfe, 0x33, 0x44, 0x55]
        = ascii "fe80::211:22ff:fe33:4455"
    ∧ string6 [0, 1, 0, 2, 0, 3, 0, 4, 0, 5, 0, 6, 0, 7, 0, 0] = ascii "1:2:3:4:5:6:7:0" := by
  decide

theorem To4_sixteen (ip : List Byte) (h : ip.length = 16) :
    To4 ip = if isIPv4Mapped ip = true then some ((ip.drop 12).take 4) else none := by
  simp only [To4, isIPv4Mapped, h, Bool.and_eq_true, decide_eq_true_eq]
  simp only [show ¬ (16 = 4) by decide, if_false, true_and, and_assoc]

/-- C10 fails as stated: the 16 bytes of `::ffff:1.2.3.4` with the port 80
give `1.2.3.4:80`, which does not start with a bracket. -/
theorem GetDestination_ipv6_counterexample :
    GetDestination { Version := 0, UUID := List.replicate 16 7, AddOnLen := 0,
                     Command := 1, Port := 80, AddressType := 3,
                     Address := [0, 0, 0, 0, 0, 0, 0, 0, 0, 0, 0xff, 0xff, 1, 2, 3, 4] }
      = ascii "1.2.3.4:80"
    ∧ (GetDestination { Version := 0, UUID := List.replicate 16 7, AddOnLen := 0,
                        Command := 1, Port := 80, AddressType := 3,
                        Address := [0, 0, 0, 0, 0, 0, 0, 0, 0, 0, 0xff, 0xff, 1, 2, 3, 4]
                      }).head? ≠ some 91 := by
  decide

/-- C10, amended: for a header of address type 3 with 16 address bytes that
are not IPv4-mapped, `GetDestination` is `[`, the IPv6 text of the bytes, `]:`
and the port in decimal, and that text holds a colon; for an IPv4-mapped
address (ten zero bytes, then `0xff 0xff`) it is the dotted quad of the last
four bytes, a colon and the port, without brackets. -/
theorem GetDestination_ipv6 (header : VLESSHeader) (hT : header.AddressType = 3)
    (hA : header.Address.length = 16) :
    (isIPv4Mapped header.Address = false →
      GetDestination header
        = ascii "[" ++ string6 header.Address ++ ascii "]:" ++ ascii (toString header.Port)
      ∧ (58 : Byte) ∈ string6 header.Address)
    ∧ (isIPv4Mapped header.Address = true →
      GetDestination header
        = ascii (toString (byteAt header.Address 12).val) ++ ascii "."
          ++ ascii (toString (byteAt header.Address 13).val) ++ ascii "."
          ++ ascii (toString (byteAt header.Address 14).val) ++ ascii "."
          ++ ascii (toString (byteAt header.Address 15).val) ++ ascii ":"
          ++ ascii (toString header.Port)) := by
  have hcol : ascii ":" = [58] := rfl
  have hdot : ascii "." = [46] := rfl
  have hopen : ascii "[" = [91] := rfl
  have hclose : ascii "]:" = [93, 58] := rfl
  have hd : GetDestination header = JoinHostPort (IPString header.Address) (Itoa header.Port) := by
    simp [GetDestination, hT, AddressTypeIPv4, AddressTypeIPv6]
  have hip : IPString header.Address
      = match To4 header.Address with
        | some p4 => string4 p4
        | none => string6 header.Address := by
    simp [IPString, hA]
  refine ⟨fun h => ⟨?_, colon_mem_string6 _⟩, fun h => ?_⟩
  · rw [hd, hip, To4_sixteen _ hA, h]
    simp only [Bool.false_eq_true, if_false]
    rw [JoinHostPort, if_pos (colon_mem_string6 _), Itoa_eq_repr, hopen, hclose]
  · rw [hd, hip, To4_sixteen _ hA, h]
    simp only [if_true]
    obtain ⟨b0, b1, b2, b3, b4, b5, b6, b7, b8, b9, b10, b11, b12, b13, b14, b15, hu⟩ :=
      length_sixteen hA
    rw [hu]
    simp only [List.drop_succ_cons, List.drop_zero, List.take_succ_cons, List.take_nil,
      List.take_zero, byteAt_cons_succ, byteAt_cons_zero]
    rw [JoinHostPort, if_neg (colon_not_mem_string4 _ _ _ _), string4_eq]
    simp only [Itoa_eq_repr, hcol, hdot]

/-- C10 amended, at the address `2001:db8::1` and the port 443. -/
theorem GetDestination_ipv6_witness :
    GetDestination { Version := 0, UUID := List.replicate 16 7, AddOnLen := 0,
                     Command := 1, Port := 443, AddressType := 3,
                     Address := [0x20, 0x01, 0x0d, 0xb8, 0, 0, 0, 0, 0, 0, 0, 0, 0, 0, 0, 1] }
      = ascii "[2001:db8::1]:443" :=
  (((GetDestination_ipv6
      { Version := 0, UUID := List.replicate 16 7, AddOnLen := 0, Command := 1, Port := 443,
        AddressType := 3,
        Address := [0x20, 0x01, 0x0d, 0xb8, 0, 0, 0, 0, 0, 0, 0, 0, 0, 0, 0, 1] }
      rfl rfl).1 (by decide)).1).trans (by decide)

/-! ## The client registry -/

/-- The number of records `GetClients` returns is the number of keys. -/
theorem length_GetClients (s : Server) : (GetClients s).length = s.clients.keys.length := by
  simp [GetClients, AList.keys, List.keys]

/-- Adding a record under a key that is present keeps the number of entries;
under a new key it adds one. -/
theorem length_GetClients_AddClient (s : Server) (r : VLESSClient) :
    (GetClients (AddClient s r)).length
      = if r.ID ∈ s.clients then (GetClients s).length else (GetClients s).length + 1 := by
  rw [length_GetClients, length_GetClients]
  simp only [AddClient, AList.keys_insert, List.length_cons]
  split_ifs with h
  · have hk : r.ID ∈ s.clients.keys := AList.mem_keys.mp h
    have hl := @List.length_erase_of_mem GoString instBEqOfDecidableEq inferInstance _ _ hk
    have : 0 < s.clients.keys.length := List.length_pos_of_mem hk
    omega
  · have hk : r.ID ∉ s.clients.keys := fun hk => h (AList.mem_keys.mpr hk)
    have hl := @List.erase_of_not_mem GoString instBEqOfDecidableEq inferInstance _ _ hk
    rw [hl]

/-- C11: `validateClient` returns true exactly when the registry holds an
entry under the given key, and returns the server as it was. So a decoded
header passes the check exactly when the string `GetUUID` renders from its
identifier is, byte for byte, a key of the registry; when every entry is
stored under the id of its record, as `AddClient` stores it, that is exactly
when the string is the id of a stored record. After `AddClient r` the
identifier `r.ID` passes. -/
theorem validateClient_iff_registered (s : Server) (uuid : GoString) (header : VLESSHeader)
    (r : VLESSClient) :
    (validateClient s uuid).2 = s
    ∧ ((validateClient s uuid).1 = true ↔ uuid ∈ s.clients.keys)
    ∧ ((validateClient s (GetUUID header)).1 = true
        ↔ ∃ key ∈ s.clients.keys, GetUUID header = key)
    ∧ ((∀ e ∈ s.clients.entries, e.1 = e.2.ID) →
        ((validateClient s (GetUUID header)).1 = true
          ↔ ∃ c ∈ GetClients s, GetUUID header = c.ID))
    ∧ (validateClient (AddClient s r) r.ID).1 = true := by
  have hv : ∀ (t : Server) (k : GoString),
      (validateClient t k).1 = true ↔ k ∈ t.clients.keys := by
    intro t k
    simp only [validateClient]
    rw [AList.lookup_isSome, AList.mem_keys]
  refine ⟨rfl, hv s uuid, ?_, ?_, ?_⟩
  · rw [hv]
    constructor
    · intro h; exact ⟨_, h, rfl⟩
    · rintro ⟨key, hk, he⟩; rw [he]; exact hk
  · intro hinv
    rw [hv]
    simp only [AList.keys, List.keys, GetClients, List.mem_map]
    constructor
    · rintro ⟨e, he, hk⟩
      exact ⟨e.2, ⟨e, he, rfl⟩, by rw [← hk]; exact hinv e he⟩
    · rintro ⟨c, ⟨e, he, rfl⟩, hk⟩
      exact ⟨e, he, by rw [hk]; exact hinv e he⟩
  · rw [hv]
    simp [AddClient]

/-- C11 at the server of the examples, whose one entry is stored under the id
of its record, and the header of scenario 1. -/
theorem validateClient_iff_registered_witness :
    (validateClient scenarioServer
        (GetUUID { Version := 0, UUID := scenarioUUID, AddOnLen := 0, Command := 1,
                   Port := 80, AddressType := 1, Address := [93, 184, 216, 34] })).1 = true
      ↔ ∃ c ∈ GetClients scenarioServer,
          GetUUID { Version := 0, UUID := scenarioUUID, AddOnLen := 0, Command := 1,
                    Port := 80, AddressType := 1, Address := [93, 184, 216, 34] } = c.ID :=
  (validateClient_iff_registered scenarioServer []
    { Version := 0, UUID := scenarioUUID, AddOnLen := 0, Command := 1, Port := 80,
      AddressType := 1, Address := [93, 184, 216, 34] }
    { ID := [], Flow := [], Email := [] }).2.2.2.1 (by decide)

/-- C12: for two records with the same identifier, `AddClient r1` followed by
`AddClient r2` leaves exactly one entry under that identifier, holding `r2`;
the entries under every other key are as before; and the number of entries is
the number before plus one when the identifier was absent, and the same number
when it was present. -/
theorem AddClient_twice (s : Server) (r1 r2 : VLESSClient) (hid : r1.ID = r2.ID) :
    (AddClient (AddClient s r1) r2).clients.lookup r2.ID = some r2
    ∧ (AddClient (AddClient s r1) r2).clients.entries.filter (fun e => e.1 = r2.ID)
        = [⟨r2.ID, r2⟩]
    ∧ (∀ k, k ≠ r2.ID →
        (AddClient (AddClient s r1) r2).clients.lookup k = s.clients.lookup k)
    ∧ (GetClients (AddClient (AddClient s r1) r2)).length
        = (if r2.ID ∈ s.clients then (GetClients s).length else (GetClients s).length + 1) := by
  refine ⟨?_, ?_, ?_, ?_⟩
  · simp [AddClient]
  · have hno : r2.ID ∉ (List.kerase r2.ID (AddClient s r1).clients.entries).keys :=
      List.not_mem_keys_kerase r2.ID (AddClient s r1).clients.nodupKeys
    have hfil : ∀ l : List (Sigma fun _ : GoString => VLESSClient), r2.ID ∉ l.keys →
        l.filter (fun e => e.1 = r2.ID) = [] := by
      intro l hl
      rw [List.filter_eq_nil_iff]
      intro e he
      have : e.1 ≠ r2.ID := fun heq => hl (heq ▸ List.mem_keys_of_mem he)
      simpa using this
    show List.filter (fun e => decide (e.1 = r2.ID))
        (⟨r2.ID, r2⟩ :: List.kerase r2.ID (AddClient s r1).clients.entries) = _
    rw [List.filter_cons_of_pos (by simp), hfil _ hno]
  · intro k hk
    have hk1 : k ≠ r1.ID := by rw [hid]; exact hk
    simp only [AddClient]
    rw [AList.lookup_insert_ne hk, AList.lookup_insert_ne hk1]
  · rw [length_GetClients_AddClient, length_GetClients_AddClient]
    have hin : r2.ID ∈ (AddClient s r1).clients := by
      simp [AddClient, hid]
    rw [if_pos hin, hid]

/-- C12 at the empty registry and two records with the identifier `a`. -/
theorem AddClient_twice_witness :
    (AddClient (AddClient { config := { Port := 443, LogLevel := [], Inbounds := [] },
                            clients := ∅, reality := none }
                  { ID := [97], Flow := [1], Email := [] })
        { ID := [97], Flow := [2], Email := [] }).clients.lookup [97]
      = some { ID := [97], Flow := [2], Email := [] } :=
  (AddClient_twice { config := { Port := 443, LogLevel := [], Inbounds := [] },
                     clients := ∅, reality := none }
    { ID := [97], Flow := [1], Email := [] } { ID := [97], Flow := [2], Email := [] } rfl).1

/-- C13: `RemoveClient` returns true exactly when an entry under the key
existed; afterwards the key is absent and the entries under every other key
are as before; for a key that was absent it returns false and the server is
exactly as it was. -/
theorem RemoveClient_spec (s : Server) (uuid : GoString) :
    ((RemoveClient s uuid).1 = true ↔ uuid ∈ s.clients.keys)
    ∧ (RemoveClient s uuid).2.clients.lookup uuid = none
    ∧ (∀ k, k ≠ uuid → (RemoveClient s uuid).2.clients.lookup k = s.clients.lookup k)
    ∧ (uuid ∉ s.clients.keys → RemoveClient s uuid = (false, s))
    ∧ (uuid ∈ s.clients.keys →
        (GetClients (RemoveClient s uuid).2).length + 1 = (GetClients s).length) := by
  have hmem : (s.clients.lookup uuid).isSome = true ↔ uuid ∈ s.clients.keys := by
    rw [AList.lookup_isSome, AList.mem_keys]
  by_cases h : (s.clients.lookup uuid).isSome = true
  · have hk := hmem.mp h
    have hR : RemoveClient s uuid = (true, { s with clients := s.clients.erase uuid }) := by
      simp only [RemoveClient, if_pos h]
    rw [hR]
    refine ⟨⟨fun _ => hk, fun _ => rfl⟩, AList.lookup_erase _ _, ?_, ?_, ?_⟩
    · intro k hne
      exact AList.lookup_erase_ne hne
    · intro hn; exact absurd hk hn
    · intro _
      rw [length_GetClients, length_GetClients]
      show (s.clients.erase uuid).keys.length + 1 = s.clients.keys.length
      rw [AList.keys_erase]
      have hl := @List.length_erase_of_mem GoString instBEqOfDecidableEq inferInstance _ _ hk
      have : 0 < s.clients.keys.length := List.length_pos_of_mem hk
      omega
  · have hk : uuid ∉ s.clients.keys := fun hk => h (hmem.mpr hk)
    have hR : RemoveClient s uuid = (false, s) := by
      simp only [RemoveClient, if_neg h]
    rw [hR]
    refine ⟨⟨fun hf => by simp at hf, fun hin => absurd hin hk⟩, ?_, ?_, ?_, ?_⟩
    · exact AList.lookup_eq_none.mpr (fun hin => hk (AList.mem_keys.mp hin))
    · intro k _; rfl
    · intro _; rfl
    · intro hin; exact absurd hin hk

/-- C13 at a registry with the one key `a`, removing the absent key `b`. -/
theorem RemoveClient_spec_witness :
    RemoveClient { config := { Port := 443, LogLevel := [], Inbounds := [] },
                   clients := AList.singleton [97] { ID := [97], Flow := [], Email := [] },
                   reality := none } [98]
      = (false, { config := { Port := 443, LogLevel := [], Inbounds := [] },
                  clients := AList.singleton [97] { ID := [97], Flow := [], Email := [] },
                  reality := none }) :=
  (RemoveClient_spec { config := { Port := 443, LogLevel := [], Inbounds := [] },
                       clients := AList.singleton [97] { ID := [97], Flow := [], Email := [] },
                       reality := none } [98]).2.2.2.1 (by decide)

/-! ## Building the registry from the configuration -/

/-- The keys after the inner loop: the keys before and the ids of the records
walked, whatever record each entry designates. -/
theorem mem_insertClients (perIteration : Bool) (all : List VLESSClient) :
    ∀ (cs : List VLESSClient) (m : ClientMap) (k : GoString),
      k ∈ insertClients perIteration all cs m ↔ k ∈ m ∨ k ∈ cs.map (fun c => c.ID) := by
  intro cs
  induction cs with
  | nil => intro m k; simp [insertClients]
  | cons c cs ih =>
    intro m k
    simp only [insertClients]
    rw [ih, AList.mem_insert]
    simp only [List.map_cons, List.mem_cons]
    tauto

/-- When the settings of every `vless` inbound can be read, the outer loop
returns no error and the keys are the keys before and the configured ids. -/
theorem parseInbounds_ok (perIteration : Bool) :
    ∀ (l : List InboundConfig) (m : ClientMap),
      (∀ inbound ∈ l, inbound.Protocol = protocolVLESS → ∃ vs, inbound.Settings = .ok vs) →
      (parseInbounds perIteration l m).1 = none
      ∧ ∀ k, k ∈ (parseInbounds perIteration l m).2 ↔ k ∈ m ∨ k ∈ configuredClientIDs l := by
  intro l
  induction l with
  | nil => intro m _; simp [parseInbounds, configuredClientIDs]
  | cons inbound rest ih =>
    intro m h
    have hrest : ∀ i ∈ rest, i.Protocol = protocolVLESS → ∃ vs, i.Settings = .ok vs :=
      fun i hi => h i (List.mem_cons_of_mem _ hi)
    by_cases hp : inbound.Protocol = protocolVLESS
    · obtain ⟨vs, hvs⟩ := h inbound (List.mem_cons_self _ _) hp
      simp only [parseInbounds, configuredClientIDs, if_pos hp, hvs]
      refine ⟨(ih _ hrest).1, fun k => ?_⟩
      rw [(ih _ hrest).2 k, mem_insertClients, List.mem_append]
      tauto
    · simp only [parseInbounds, configuredClientIDs, if_neg hp]
      exact ih m hrest

/-- A registry has no entry exactly when it has no key. -/
theorem entries_length_eq_zero_iff (m : ClientMap) :
    m.entries.length = 0 ↔ ∀ k, k ∉ m := by
  constructor
  · intro h k hk
    have hnil : m.entries = [] := List.length_eq_zero.mp h
    have : k ∈ m.keys := AList.mem_keys.mp hk
    simp [AList.keys, hnil] at this
  · intro h
    cases hm : m.entries with
    | nil => rfl
    | cons e es =>
      exfalso
      apply h e.1
      rw [AList.mem_keys]
      simp [AList.keys, hm, List.keys]

/-- C14: when the settings of every `vless` inbound can be read, `parseClients`
on the empty registry, and so `NewServer`, fails with the no-clients error
exactly when the `vless` inbounds list no client record; otherwise `NewServer`
succeeds and the keys of the registry are exactly the client ids listed by the
`vless` inbounds, so that no client of an inbound of another protocol is
inserted. This holds for both meanings of the loop variable. -/
theorem NewServer_clients (perIteration : Bool) (cfg : Config)
    (hparse : ∀ inbound ∈ cfg.Inbounds, inbound.Protocol = protocolVLESS →
      ∃ vs, inbound.Settings = .ok vs) :
    ((parseClients perIteration { config := cfg, clients := ∅, reality := none }).1
        = some .noClients ↔ configuredClientIDs cfg.Inbounds = [])
    ∧ (NewServer perIteration cfg = .error (.parseClients .noClients)
        ↔ configuredClientIDs cfg.Inbounds = [])
    ∧ (configuredClientIDs cfg.Inbounds ≠ [] →
        ∃ server, NewServer perIteration cfg = .ok server
          ∧ ∀ k, k ∈ server.clients.keys ↔ k ∈ configuredClientIDs cfg.Inbounds) := by
  obtain ⟨hnone, hkeys⟩ := parseInbounds_ok perIteration cfg.Inbounds ∅ hparse
  have hkeys' : ∀ k, k ∈ (parseInbounds perIteration cfg.Inbounds ∅).2
      ↔ k ∈ configuredClientIDs cfg.Inbounds := by
    intro k
    rw [hkeys k]
    simp
  have hempty : (parseInbounds perIteration cfg.Inbounds ∅).2.entries.length = 0
      ↔ configuredClientIDs cfg.Inbounds = [] := by
    rw [entries_length_eq_zero_iff]
    simp only [hkeys']
    exact List.eq_nil_iff_forall_not_mem.symm
  have hpc : parseClients perIteration { config := cfg, clients := ∅, reality := none }
      = if (parseInbounds perIteration cfg.Inbounds ∅).2.entries.length = 0 then
          (some .noClients,
            { config := cfg, clients := (parseInbounds perIteration cfg.Inbounds ∅).2,
              reality := none })
        else
          (none,
            { config := cfg, clients := (parseInbounds perIteration cfg.Inbounds ∅).2,
              reality := none }) := by
    rcases hpi : parseInbounds perIteration cfg.Inbounds ∅ with ⟨e, m⟩
    rw [hpi] at hnone
    simp only at hnone
    subst hnone
    simp only [parseClients, hpi]
  by_cases h0 : (parseInbounds perIteration cfg.Inbounds ∅).2.entries.length = 0
  · have hids := hempty.mp h0
    refine ⟨?_, ?_, fun hne => absurd hids hne⟩
    · rw [hpc, if_pos h0]; simp [hids]
    · simp only [NewServer, hpc, if_pos h0, hids]
  · have hids : configuredClientIDs cfg.Inbounds ≠ [] := fun h => h0 (hempty.mpr h)
    refine ⟨?_, ?_, fun _ => ?_⟩
    · rw [hpc, if_neg h0]; simp [hids]
    · simp only [NewServer, hpc, if_neg h0, initReality]
      constructor
      · intro h
        cases hf : findReality cfg.Inbounds <;> simp [hf] at h
      · intro h; exact absurd h hids
    · simp only [NewServer, hpc, if_neg h0, initReality]
      cases hf : findReality cfg.Inbounds with
      | none =>
        exact ⟨_, rfl, fun k => by rw [← AList.mem_keys]; exact hkeys' k⟩
      | some r =>
        exact ⟨_, rfl, fun k => by rw [← AList.mem_keys]; exact hkeys' k⟩

/-- C14 at a configuration with one `vless` inbound listing the client `a` and
one inbound of another protocol listing the client `c`. -/
theorem NewServer_clients_witness :
    ∃ server,
      NewServer true
          { Port := 443, LogLevel := [],
            Inbounds :=
              [{ Protocol := ascii "vless", Port := 443,
                 Settings := .ok { Clients := [{ ID := [97], Flow := [], Email := [] }],
                                   Decryption := [] },
                 StreamSettings := none },
               { Protocol := ascii "trojan", Port := 444,
                 Settings := .ok { Clients := [{ ID := [99], Flow := [], Email := [] }],
                                   Decryption := [] },
                 StreamSettings := none }] }
        = .ok server
      ∧ ∀ k, k ∈ server.clients.keys ↔
          k ∈ configuredClientIDs
                [{ Protocol := ascii "vless", Port := 443,
                   Settings := .ok { Clients := [{ ID := [97], Flow := [], Email := [] }],
                                     Decryption := [] },
                   StreamSettings := none },
                 { Protocol := ascii "trojan", Port := 444,
                   Settings := .ok { Clients := [{ ID := [99], Flow := [], Email := [] }],
                                     Decryption := [] },
                   StreamSettings := none }] :=
  (NewServer_clients true
    { Port := 443, LogLevel := [],
      Inbounds :=
        [{ Protocol := ascii "vless", Port := 443,
           Settings := .ok { Clients := [{ ID := [97], Flow := [], Email := [] }],
                             Decryption := [] },
           StreamSettings := none },
         { Protocol := ascii "trojan", Port := 444,
           Settings := .ok { Clients := [{ ID := [99], Flow := [], Email := [] }],
                             Decryption := [] },
           StreamSettings := none }] }
    (by
      intro inbound hmem hp
      simp only [List.mem_cons, List.mem_singleton, List.not_mem_nil, or_false] at hmem
      rcases hmem with rfl | rfl
      · exact ⟨_, rfl⟩
      · exact absurd hp (by decide))).2.2 (by decide)

/-! ## Handling a connection -/

/-- Reading never writes. -/
theorem ReadFull_written (n : Nat) (c : Conn) : (ReadFull n c).2.written = c.written := by
  unfold ReadFull
  split_ifs <;> rfl

theorem readAddress_written (t : Byte) (c : Conn) :
    (readAddress t c).2.written = c.written := by
  unfold readAddress
  split_ifs
  · have h := ReadFull_written 4 c
    rcases hr : ReadFull 4 c with ⟨e | a, c1⟩ <;> rw [hr] at h <;> exact h
  · have h := ReadFull_written 16 c
    rcases hr : ReadFull 16 c with ⟨e | a, c1⟩ <;> rw [hr] at h <;> exact h
  · have h := ReadFull_written 1 c
    rcases hr : ReadFull 1 c with ⟨e | a, c1⟩
    · rw [hr] at h; exact h
    · rw [hr] at h
      simp only at h ⊢
      have h2 := ReadFull_written (byteAt a 0).val c1
      rcases hr2 : ReadFull (byteAt a 0).val c1 with ⟨e | a2, c2⟩ <;> rw [hr2] at h2 <;>
        simp only at h2 ⊢ <;> rw [h2, h]
  · rfl

/-- Decoding the header writes nothing to the stream. -/
theorem ReadHeader_written (vc : VLESSConnection) :
    (ReadHeader vc).2.conn.written = vc.conn.written := by
  generalize hr : ReadHeader vc = r
  unfold ReadHeader at hr
  split at hr
  · next e c h =>
    subst hr
    have := ReadFull_written 1 vc.conn
    rw [h] at this; exact this
  next b1 c1 h1 =>
  have w1 : c1.written = vc.conn.written := by
    have := ReadFull_written 1 vc.conn
    rw [h1] at this; exact this
  split_ifs at hr with hv
  · subst hr; exact w1
  split at hr
  · next e c h =>
    subst hr
    have := ReadFull_written 16 c1
    rw [h] at this; exact this.trans w1
  next b2 c2 h2 =>
  have w2 : c2.written = vc.conn.written := by
    have := ReadFull_written 16 c1
    rw [h2] at this; exact this.trans w1
  split at hr
  · next e c h =>
    subst hr
    have := ReadFull_written 1 c2
    rw [h] at this; exact this.trans w2
  next b3 c3 h3 =>
  have w3 : c3.written = vc.conn.written := by
    have := ReadFull_written 1 c2
    rw [h3] at this; exact this.trans w2
  have w4 : ∀ (x : Except IOError (List Byte)) (c : Conn),
      (if byteAt b3 0 > 0 then ReadFull (byteAt b3 0).val c3 else (.ok [], c3)) = (x, c) →
      c.written = vc.conn.written := by
    intro x c h
    split_ifs at h
    · have := ReadFull_written (byteAt b3 0).val c3
      rw [h] at this; exact this.trans w3
    · simp only [Prod.mk.injEq] at h
      rw [← h.2]; exact w3
  dsimp only at hr
  split at hr
  · next e c h =>
    subst hr
    exact w4 _ _ h
  next b4 c4 h4 =>
  have w4' : c4.written = vc.conn.written := w4 _ _ h4
  split at hr
  · next e c h =>
    subst hr
    have := ReadFull_written 1 c4
    rw [h] at this; exact this.trans w4'
  next b5 c5 h5 =>
  have w5 : c5.written = vc.conn.written := by
    have := ReadFull_written 1 c4
    rw [h5] at this; exact this.trans w4'
  split at hr
  · next e c h =>
    subst hr
    have := ReadFull_written 2 c5
    rw [h] at this; exact this.trans w5
  next b6 c6 h6 =>
  have w6 : c6.written = vc.conn.written := by
    have := ReadFull_written 2 c5
    rw [h6] at this; exact this.trans w5
  split at hr
  · next e c h =>
    subst hr
    have := ReadFull_written 1 c6
    rw [h] at this; exact this.trans w6
  next b7 c7 h7 =>
  have w7 : c7.written = vc.conn.written := by
    have := ReadFull_written 1 c6
    rw [h7] at this; exact this.trans w6
  split at hr
  · next e c h =>
    subst hr
    have := readAddress_written (byteAt b7 0) c7
    rw [h] at this; exact this.trans w7
  · next a c h =>
    subst hr
    have := readAddress_written (byteAt b7 0) c7
    rw [h] at this; exact this.trans w7

theorem validateClient_true_iff (s : Server) (uuid : GoString) :
    (validateClient s uuid).1 = true ↔ uuid ∈ s.clients.keys := by
  simp only [validateClient]
  rw [AList.lookup_isSome, AList.mem_keys]

/-- The acknowledgement on a stream whose write does not fail: the two bytes
are appended, as `WriteResponse` appends them, and no error is returned. -/
theorem Network_WriteResponse_ok (net : Network) (vc : VLESSConnection)
    (h : net.WriteError vc.conn [0, 0] = none) :
    net.WriteResponse vc
      = (none, { conn := { unread := vc.conn.unread, written := vc.conn.written ++ [0, 0] },
                 header := vc.header })
    ∧ (net.WriteResponse vc).2 = (WriteResponse vc).2 := by
  have hv : ([Version, 0] : List Byte) = [0, 0] := rfl
  simp only [Network.WriteResponse, Network.Write, hv, h]
  exact ⟨rfl, rfl⟩

/-- The acknowledgement on a stream whose write fails after `n` bytes: the
error is returned and only the first `n` of the two bytes are written. -/
theorem Network_WriteResponse_failed (net : Network) (vc : VLESSConnection) (e : NetError)
    (n : Nat) (h : net.WriteError vc.conn [0, 0] = some (e, n)) :
    net.WriteResponse vc
      = (some e, { conn := { unread := vc.conn.unread,
                             written := vc.conn.written ++ List.take n [0, 0] },
                   header := vc.header }) := by
  have hv : ([Version, 0] : List Byte) = [0, 0] := rfl
  simp only [Network.WriteResponse, Network.Write, hv, h]

/-- The outcome of `handleVLESS` once the header is decoded and the identifier
is registered: it is decided by the dial and by the write of the
acknowledgement. -/
theorem handleVLESS_registered (s : Server) (net : Network) (conn : Conn)
    (header : VLESSHeader) (vc : VLESSConnection)
    (hdec : ReadHeader (NewVLESSConnection conn) = (.ok header, vc))
    (hreg : GetUUID header ∈ s.clients.keys) :
    handleVLESS s net conn
      = match net.Dial (GetDestination header) with
        | some e =>
          { err := some (.dial e), conn := vc.conn,
            calls := [.ReadHeader, .validateClient (GetUUID header),
                      .Dial (GetDestination header)] }
        | none =>
          match net.WriteError vc.conn [0, 0] with
          | some (e, n) =>
            { err := some (.writeResponse e),
              conn := { unread := vc.conn.unread,
                        written := vc.conn.written ++ List.take n [0, 0] },
              calls := [.ReadHeader, .validateClient (GetUUID header),
                        .Dial (GetDestination header), .WriteResponse] }
          | none =>
            { err := (net.Relay (GetDestination header)
                        { unread := vc.conn.unread,
                          written := vc.conn.written ++ [0, 0] }).1.map .relay,
              conn := (net.Relay (GetDestination header)
                        { unread := vc.conn.unread,
                          written := vc.conn.written ++ [0, 0] }).2,
              calls := [.ReadHeader, .validateClient (GetUUID header),
                        .Dial (GetDestination header), .WriteResponse, .Relay] } := by
  have hv : (validateClient s (GetUUID header)).1 = true :=
    (validateClient_true_iff s _).mpr hreg
  simp only [handleVLESS, hdec, hv, not_true_eq_false, if_false]
  cases net.Dial (GetDestination header) with
  | some e => rfl
  | none =>
    simp only
    rcases hw : net.WriteError vc.conn [0, 0] with _ | ⟨e, n⟩
    · rw [(Network_WriteResponse_ok net vc hw).1]
    · rw [Network_WriteResponse_failed net vc e n hw]

/-- The outcome of `handleVLESS` once the header is decoded and the identifier
is not registered. -/
theorem handleVLESS_unregistered (s : Server) (net : Network) (conn : Conn)
    (header : VLESSHeader) (vc : VLESSConnection)
    (hdec : ReadHeader (NewVLESSConnection conn) = (.ok header, vc))
    (hreg : GetUUID header ∉ s.clients.keys) :
    handleVLESS s net conn
      = { err := some (.invalidUUID (GetUUID header)), conn := vc.conn,
          calls := [.ReadHeader, .validateClient (GetUUID header)] } := by
  have hv : (validateClient s (GetUUID header)).1 = false := by
    cases hb : (validateClient s (GetUUID header)).1 with
    | false => rfl
    | true => exact absurd ((validateClient_true_iff s _).mp hb) hreg
  simp only [handleVLESS, hdec, hv, Bool.false_eq_true, not_false_eq_true, if_true]

/-- The outcome of `handleVLESS` when the header cannot be decoded. -/
theorem handleVLESS_undecoded (s : Server) (net : Network) (conn : Conn)
    (e : HeaderError) (vc : VLESSConnection)
    (hdec : ReadHeader (NewVLESSConnection conn) = (.error e, vc)) :
    handleVLESS s net conn
      = { err := some (.readHeader e), conn := vc.conn, calls := [.ReadHeader] } := by
  simp only [handleVLESS, hdec]

/-- C15 fails as stated: the stream of scenario 1 with the command byte 2 (UDP)
decodes to a header with command 2, and with the identifier registered and a
dial that succeeds `handleVLESS` returns no error, having dialed the
destination, written the acknowledgement `0x00 0x00` and started the relay. -/
theorem handleVLESS_command_counterexample :
    (ReadHeader (NewVLESSConnection (scenarioStream 2))).1
      = .ok { Version := 0, UUID := scenarioUUID, AddOnLen := 0, Command := 2, Port := 80,
              AddressType := 1, Address := [93, 184, 216, 34] }
    ∧ handleVLESS scenarioServer openNetwork (scenarioStream 2)
      = { err := none,
          conn := { unread := [], written := [0, 0] },
          calls := [.ReadHeader,
                    .validateClient (ascii "07070707-0707-0707-0707-070707070707"),
                    .Dial (ascii "93.184.216.34:80"), .WriteResponse, .Relay] } :=
  ⟨rfl, by decide⟩

/-- C15, amended: `handleVLESS` does not look at the command byte. For every
decoded header, whatever its command, whose identifier is registered, the
destination is dialed. When the dial fails the error is returned with nothing
written. When it succeeds the acknowledgement `0x00 0x00` is handed to the
stream: if that write succeeds the relay is started, and if it fails the
write error is returned and no relay is started. -/
theorem handleVLESS_any_command (s : Server) (net : Network) (conn : Conn)
    (header : VLESSHeader) (vc : VLESSConnection)
    (hdec : ReadHeader (NewVLESSConnection conn) = (.ok header, vc))
    (hreg : GetUUID header ∈ s.clients.keys) :
    (∀ e, net.Dial (GetDestination header) = some e →
      handleVLESS s net conn
        = { err := some (.dial e), conn := vc.conn,
            calls := [.ReadHeader, .validateClient (GetUUID header),
                      .Dial (GetDestination header)] }
      ∧ vc.conn.written = conn.written)
    ∧ (net.Dial (GetDestination header) = none →
        net.WriteError vc.conn [0, 0] = none →
      handleVLESS s net conn
        = { err := (net.Relay (GetDestination header)
                      { unread := vc.conn.unread, written := conn.written ++ [0, 0] }).1.map
                    .relay,
            conn := (net.Relay (GetDestination header)
                      { unread := vc.conn.unread, written := conn.written ++ [0, 0] }).2,
            calls := [.ReadHeader, .validateClient (GetUUID header),
                      .Dial (GetDestination header), .WriteResponse, .Relay] })
    ∧ (net.Dial (GetDestination header) = none →
        ∀ e n, net.WriteError vc.conn [0, 0] = some (e, n) →
      handleVLESS s net conn
        = { err := some (.writeResponse e),
            conn := { unread := vc.conn.unread,
                      written := conn.written ++ List.take n [0, 0] },
            calls := [.ReadHeader, .validateClient (GetUUID header),
                      .Dial (GetDestination header), .WriteResponse] }) := by
  have hw : vc.conn.written = conn.written := by
    have := ReadHeader_written (NewVLESSConnection conn)
    rw [hdec] at this
    exact this
  rw [handleVLESS_registered s net conn header vc hdec hreg]
  refine ⟨fun e he => ⟨by rw [he], hw⟩, fun hn hok => ?_, fun hn e n hf => ?_⟩
  · rw [hn, hok, hw]
  · rw [hn, hf, hw]

/-- C15 amended, at the stream of scenario 1 with the command byte 3
(multiplex) and the identifier registered: on the open network the request is
dialed, acknowledged and relayed; on the network whose client has reset its
stream it is dialed and the write error is returned without a relay. -/
theorem handleVLESS_any_command_witness :
    handleVLESS scenarioServer openNetwork (scenarioStream 3)
      = { err := none,
          conn := { unread := [], written := [0, 0] },
          calls := [.ReadHeader,
                    .validateClient (ascii "07070707-0707-0707-0707-070707070707"),
                    .Dial (ascii "93.184.216.34:80"), .WriteResponse, .Relay] }
    ∧ handleVLESS scenarioServer resetNetwork (scenarioStream 3)
      = { err := some (.writeResponse { code := 104 }),
          conn := { unread := [], written := [] },
          calls := [.ReadHeader,
                    .validateClient (ascii "07070707-0707-0707-0707-070707070707"),
                    .Dial (ascii "93.184.216.34:80"), .WriteResponse] } :=
  ⟨((handleVLESS_any_command scenarioServer openNetwork (scenarioStream 3)
      { Version := 0, UUID := scenarioUUID, AddOnLen := 0, Command := 3, Port := 80,
        AddressType := 1, Address := [93, 184, 216, 34] }
      { conn := { unread := [], written := [] },
        header := some { Version := 0, UUID := scenarioUUID, AddOnLen := 0, Command := 3,
                         Port := 80, AddressType := 1, Address := [93, 184, 216, 34] } }
      rfl (by decide)).2.1 rfl rfl).trans (by decide),
   ((handleVLESS_any_command scenarioServer resetNetwork (scenarioStream 3)
      { Version := 0, UUID := scenarioUUID, AddOnLen := 0, Command := 3, Port := 80,
        AddressType := 1, Address := [93, 184, 216, 34] }
      { conn := { unread := [], written := [] },
        header := some { Version := 0, UUID := scenarioUUID, AddOnLen := 0, Command := 3,
                         Port := 80, AddressType := 1, Address := [93, 184, 216, 34] } }
      rfl (by decide)).2.2 rfl { code := 104 } 0 rfl).trans (by decide)⟩

/-- C16: `handleVLESS` writes the acknowledgement only after the header was
decoded, the identifier was found in the registry and the dial succeeded, in
that order: when `WriteResponse` is among its calls, the header decoded, the
identifier is a key, the dial succeeded and the calls are decode, check, dial,
acknowledge, followed by the relay when the write succeeded and by nothing,
with the write error returned, when it failed. When `WriteResponse` is not
among the calls, nothing was written, no relay was started and an error is
returned. In particular, for every stream that decodes to a header whose
identifier is not registered, the error is the invalid-identifier error and
the only calls are decode and check: no dial, no acknowledgement, no relay. -/
theorem handleVLESS_order (s : Server) (net : Network) (conn : Conn) :
    (Call.WriteResponse ∈ (handleVLESS s net conn).calls →
      ∃ header vc, ReadHeader (NewVLESSConnection conn) = (.ok header, vc)
        ∧ GetUUID header ∈ s.clients.keys
        ∧ net.Dial (GetDestination header) = none
        ∧ (net.WriteError vc.conn [0, 0] = none →
            (handleVLESS s net conn).calls
              = [.ReadHeader, .validateClient (GetUUID header),
                 .Dial (GetDestination header), .WriteResponse, .Relay])
        ∧ (∀ e n, net.WriteError vc.conn [0, 0] = some (e, n) →
            (handleVLESS s net conn).calls
              = [.ReadHeader, .validateClient (GetUUID header),
                 .Dial (GetDestination header), .WriteResponse]
            ∧ (handleVLESS s net conn).err = some (.writeResponse e)))
    ∧ (Call.WriteResponse ∉ (handleVLESS s net conn).calls →
      (handleVLESS s net conn).conn.written = conn.written
        ∧ Call.Relay ∉ (handleVLESS s net conn).calls
        ∧ (handleVLESS s net conn).err ≠ none)
    ∧ (∀ header vc, ReadHeader (NewVLESSConnection conn) = (.ok header, vc) →
        GetUUID header ∉ s.clients.keys →
        handleVLESS s net conn
          = { err := some (.invalidUUID (GetUUID header)),
              conn := { unread := vc.conn.unread, written := conn.written },
              calls := [.ReadHeader, .validateClient (GetUUID header)] }) := by
  have hw : (ReadHeader (NewVLESSConnection conn)).2.conn.written = conn.written :=
    ReadHeader_written (NewVLESSConnection conn)
  refine ⟨?_, ?_, ?_⟩
  · intro hmem
    rcases hdec : ReadHeader (NewVLESSConnection conn) with ⟨e | header, vc⟩
    · rw [handleVLESS_undecoded s net conn e vc hdec] at hmem
      simp at hmem
    · by_cases hreg : GetUUID header ∈ s.clients.keys
      · rw [handleVLESS_registered s net conn header vc hdec hreg] at hmem ⊢
        cases hd : net.Dial (GetDestination header) with
        | some e => rw [hd] at hmem; simp at hmem
        | none =>
          refine ⟨header, vc, rfl, hreg, hd, fun hok => ?_, fun e n hf => ?_⟩
          · rw [hok]
          · rw [hf]
            exact ⟨rfl, rfl⟩
      · rw [handleVLESS_unregistered s net conn header vc hdec hreg] at hmem
        simp at hmem
  · intro hmem
    rcases hdec : ReadHeader (NewVLESSConnection conn) with ⟨e | header, vc⟩
    · rw [hdec] at hw
      rw [handleVLESS_undecoded s net conn e vc hdec]
      exact ⟨hw, by simp, by simp⟩
    · rw [hdec] at hw
      by_cases hreg : GetUUID header ∈ s.clients.keys
      · rw [handleVLESS_registered s net conn header vc hdec hreg] at hmem ⊢
        cases hd : net.Dial (GetDestination header) with
        | some e => exact ⟨hw, by simp, by simp⟩
        | none =>
          rw [hd] at hmem
          rcases hwe : net.WriteError vc.conn [0, 0] with _ | ⟨e, n⟩
          · rw [hwe] at hmem; simp at hmem
          · rw [hwe] at hmem; simp at hmem
      · rw [handleVLESS_unregistered s net conn header vc hdec hreg]
        exact ⟨hw, by simp, by simp⟩
  · intro header vc hdec hreg
    rw [hdec] at hw
    rw [handleVLESS_unregistered s net conn header vc hdec hreg, ← hw]

/-- C16 at scenario 2: the stream of scenario 1 sent to a server whose
registry is empty. -/
theorem handleVLESS_order_witness :
    handleVLESS { config := { Port := 443, LogLevel := [], Inbounds := [] }, clients := ∅,
                  reality := none } openNetwork (scenarioStream 1)
      = { err := some (.invalidUUID (GetUUID
                { Version := 0, UUID := scenarioUUID, AddOnLen := 0, Command := 1, Port := 80,
                  AddressType := 1, Address := [93, 184, 216, 34] })),
          conn := { unread := [], written := [] },
          calls := [.ReadHeader, .validateClient (GetUUID
                { Version := 0, UUID := scenarioUUID, AddOnLen := 0, Command := 1, Port := 80,
                  AddressType := 1, Address := [93, 184, 216, 34] })] } :=
  (handleVLESS_order { config := { Port := 443, LogLevel := [], Inbounds := [] },
                       clients := ∅, reality := none } openNetwork (scenarioStream 1)).2.2
    { Version := 0, UUID := scenarioUUID, AddOnLen := 0, Command := 1, Port := 80,
      AddressType := 1, Address := [93, 184, 216, 34] }
    { conn := { unread := [], written := [] },
      header := some { Version := 0, UUID := scenarioUUID, AddOnLen := 0, Command := 1,
                       Port := 80, AddressType := 1, Address := [93, 184, 216, 34] } }
    rfl (by decide)

/-! ## Camouflage -/

/-- C17: for every handler, network and stream, `WrapConnection` returns the
error of the certificate generation and no wrapped stream, with no handshake
call and the raw stream untouched. So on a server with camouflage configured
`handleConnection` logs that error and closes the stream after the single call
of `WrapConnection`: the header is not decoded, no byte is read or written, no
identifier is checked, nothing is dialed and no relay is started. -/
theorem WrapConnection_always_fails (r : RealityHandler) (net : Network) (conn : Conn)
    (s : Server) (hs : s.reality = some r) :
    WrapConnection r net conn
      = (.error (.createTLSConfig (.generateCert .certNotImplemented)), conn, [])
    ∧ handleConnection s net conn
      = { logged := some (.reality (.createTLSConfig (.generateCert .certNotImplemented))),
          raw := conn, stream := none, calls := [.WrapConnection, .Close] }
    ∧ Call.ReadHeader ∉ (handleConnection s net conn).calls
    ∧ (∀ uuid, Call.validateClient uuid ∉ (handleConnection s net conn).calls)
    ∧ Call.Relay ∉ (handleConnection s net conn).calls := by
  have hw : WrapConnection r net conn
      = (.error (.createTLSConfig (.generateCert .certNotImplemented)), conn, []) := rfl
  have hc : handleConnection s net conn
      = { logged := some (.reality (.createTLSConfig (.generateCert .certNotImplemented))),
          raw := conn, stream := none, calls := [.WrapConnection, .Close] } := by
    simp only [handleConnection, hs, hw, List.append_nil, List.singleton_append]
  refine ⟨hw, hc, ?_, ?_, ?_⟩
  · rw [hc]; simp
  · intro uuid; rw [hc]; simp
  · rw [hc]; simp

/-- C17 at the server of the examples with camouflage switched on and the
stream of scenario 1. -/
theorem WrapConnection_always_fails_witness :
    handleConnection
        { config := scenarioServer.config, clients := scenarioServer.clients,
          reality := some (NewRealityHandler
            { Show := false, Dest := ascii "example.com:443", XVer := 0,
              ServerNames := [ascii "example.com"], PrivateKey := [], MinClientVer := [],
              MaxClientVer := [], MaxTimeDiff := 0, ShortIds := [ascii "ab"] }) }
        openNetwork (scenarioStream 1)
      = { logged := some (.reality (.createTLSConfig (.generateCert .certNotImplemented))),
          raw := scenarioStream 1, stream := none, calls := [.WrapConnection, .Close] } :=
  (WrapConnection_always_fails
    (NewRealityHandler
      { Show := false, Dest := ascii "example.com:443", XVer := 0,
        ServerNames := [ascii "example.com"], PrivateKey := [], MinClientVer := [],
        MaxClientVer := [], MaxTimeDiff := 0, ShortIds := [ascii "ab"] })
    openNetwork (scenarioStream 1)
    { config := scenarioServer.config, clients := scenarioServer.clients,
      reality := some (NewRealityHandler
        { Show := false, Dest := ascii "example.com:443", XVer := 0,
          ServerNames := [ascii "example.com"], PrivateKey := [], MinClientVer := [],
          MaxClientVer := [], MaxTimeDiff := 0, ShortIds := [ascii "ab"] }) }
    rfl).2.1

/-- C18: `IsRealityConnection` returns true exactly when the read succeeds
with at least 6 bytes, byte 0 is 22, byte 1 is 3 and byte 2 is 1 or 3; it
returns false on a read error, on fewer than 6 bytes and on any other
pattern. In particular true implies that the first byte read is 22 and the
next two are `3, 1` or `3, 3`. -/
theorem IsRealityConnection_iff (conn : Conn) (avail : Nat) :
    ((IsRealityConnection conn avail).1 = true ↔
      ∃ buffer c, conn.Read 1024 avail = (.ok buffer, c) ∧ 6 ≤ buffer.length
        ∧ byteAt buffer 0 = 22 ∧ byteAt buffer 1 = 3
        ∧ (byteAt buffer 2 = 1 ∨ byteAt buffer 2 = 3))
    ∧ (∀ e c, conn.Read 1024 avail = (.error e, c) →
        (IsRealityConnection conn avail).1 = false)
    ∧ (∀ buffer c, conn.Read 1024 avail = (.ok buffer, c) → buffer.length < 6 →
        (IsRealityConnection conn avail).1 = false) := by
  refine ⟨?_, ?_, ?_⟩
  · rcases hr : conn.Read 1024 avail with ⟨e | buffer, c⟩
    · simp [IsRealityConnection, hr]
    · simp only [IsRealityConnection, hr, Prod.mk.injEq, Except.ok.injEq]
      constructor
      · intro h
        by_cases h1 : buffer.length < 6
        · simp [h1] at h
        by_cases h2 : byteAt buffer 0 ≠ 22
        · simp [h1, h2] at h
        by_cases h3 : byteAt buffer 1 ≠ 3 ∨ (byteAt buffer 2 ≠ 1 ∧ byteAt buffer 2 ≠ 3)
        · simp [h1, h2, h3] at h
        refine ⟨buffer, c, ⟨rfl, rfl⟩, by omega, by simpa using h2, ?_, ?_⟩
        · by_contra h4; exact h3 (Or.inl h4)
        · by_contra h4
          rw [not_or] at h4
          exact h3 (Or.inr h4)
      · rintro ⟨b, c', ⟨rfl, rfl⟩, hlen, h0, h1, h2⟩
        have hn : ¬ buffer.length < 6 := by omega
        have h3 : ¬ (byteAt buffer 1 ≠ 3 ∨ (byteAt buffer 2 ≠ 1 ∧ byteAt buffer 2 ≠ 3)) := by
          rintro (h | ⟨ha, hb⟩)
          · exact h h1
          · rcases h2 with h2 | h2
            · exact ha h2
            · exact hb h2
        simp only [hn, h0, h3, ne_eq, not_true_eq_false, if_false]
  · intro e c hr
    simp only [IsRealityConnection, hr]
  · intro buffer c hr hlen
    simp only [IsRealityConnection, hr, hlen, if_true]

/-- C18 at a stream that starts with a TLS 1.0 handshake record header, all
seven bytes arriving in time. -/
theorem IsRealityConnection_iff_witness :
    (IsRealityConnection { unread := [22, 3, 1, 0, 5, 1, 9], written := [] } 7).1 = true :=
  (IsRealityConnection_iff { unread := [22, 3, 1, 0, 5, 1, 9], written := [] } 7).1.mpr
    ⟨[22, 3, 1, 0, 5, 1, 9], { unread := [], written := [] }, rfl, by decide, rfl, rfl,
      Or.inl rfl⟩

/-- The loop of `ValidateShortID` finds the id exactly when it is in the list. -/
theorem ValidateShortID_go_iff (shortID : GoString) :
    ∀ l : List GoString, ValidateShortID.go shortID l = true ↔ shortID ∈ l := by
  intro l
  induction l with
  | nil => simp [ValidateShortID.go]
  | cons validID rest ih =>
    simp only [ValidateShortID.go, List.mem_cons]
    split_ifs with h
    · simp [h]
    · rw [ih]; simp [h]

/-- C19: `ValidateShortID` returns true exactly when the presented id is equal
to some element of the configured list; with an empty list it returns false
for every id. -/
theorem ValidateShortID_iff (r : RealityHandler) (shortID : GoString) :
    (ValidateShortID r shortID = true ↔ ∃ validID ∈ r.config.ShortIds, shortID = validID)
    ∧ (r.config.ShortIds = [] → ValidateShortID r shortID = false) := by
  have h : ValidateShortID r shortID = true ↔ shortID ∈ r.config.ShortIds :=
    ValidateShortID_go_iff shortID r.config.ShortIds
  refine ⟨?_, fun hnil => ?_⟩
  · rw [h]
    constructor
    · intro hm; exact ⟨shortID, hm, rfl⟩
    · rintro ⟨v, hv, rfl⟩; exact hv
  · cases hb : ValidateShortID r shortID with
    | false => rfl
    | true =>
      have := h.mp hb
      rw [hnil] at this
      simp at this

/-- C19 at a handler without short ids and the id `ab`. -/
theorem ValidateShortID_iff_witness :
    ValidateShortID
        (NewRealityHandler
          { Show := false, Dest := [], XVer := 0, ServerNames := [], PrivateKey := [],
            MinClientVer := [], MaxClientVer := [], MaxTimeDiff := 0, ShortIds := [] })
        [97, 98]
      = false :=
  (ValidateShortID_iff
    (NewRealityHandler
      { Show := false, Dest := [], XVer := 0, ServerNames := [], PrivateKey := [],
        MinClientVer := [], MaxClientVer := [], MaxTimeDiff := 0, ShortIds := [] })
    [97, 98]).2 rfl

end Vless
